import Mathlib

/-
Verification of the dataframe-compiler core of the Pixie repository.

The development shallowly embeds:
  * the IR graph store (integer-ID-addressed nodes, creation, deletion,
    in-place update) together with the node kinds used by the claims,
  * the Dataframe operation handlers (Join, Aggregate, Drop, Limit,
    Subscript) from the compiler sources,
  * the OpenTelemetry span/metric/summary builders from
    src/carnot/planner/objects/otel.cc and the OTelSpanKind enum from
    src/carnot/planpb/plan.proto.

Machine integers are modelled as Lean Int/Nat (no arithmetic overflow is
exercised by the embedded code paths); the payload of a FloatIR node is
carried opaquely (it is only copied, never computed with).  Fallible code
returns Except.  A CHECK/DCHECK abort (a process panic) is modelled as the
distinguished error constructor Failure.assertionFailure, which is never
produced by the ordinary structured-error paths.
-/

set_option maxHeartbeats 1600000

namespace PixieCompiler

/-- Error outcomes of the compiler core.  A structured error is a Status
returned to the caller; an assertionFailure models a CHECK/DCHECK abort. -/
inductive Failure where
  | structured (msg : String)
  | assertionFailure (msg : String)

/-- Join types of the JoinOperator message in plan.proto. -/
inductive JoinType where
  | inner
  | left_outer
  | full_outer

/-- Operator-node payloads needed by the claims.  Parents and expression
references are graph node IDs. -/
inductive OperatorData where
  | memSource (tableName : String)
  | joinOp (parents : List Nat) (joinType : JoinType)
      (leftOnColumns rightOnColumns : List Nat) (suffixStrs : List String)
  | blockingAgg (parent : Nat) (groups : List Nat)
      (aggregateExpressions : List (String × Nat))
  | dropOp (parent : Nat) (colNames : List String)
  | limitOp (parent : Nat) (limitValue : Int)
  | mapOp (parent : Nat) (colExprs : List (String × Nat)) (keepInputColumns : Bool)
  | filterOp (parent : Nat) (filterExpr : Nat)

/-- IR node payloads: expression kinds (StringIR, IntIR, FloatIR, ColumnIR,
FuncIR, ListIR, TupleIR) and operator nodes. -/
inductive IRNodeData where
  | strNode (s : String)
  | intNode (n : Int)
  | floatNode (v : Int)
  | columnNode (colName : String) (parentOpIdx : Nat)
  | funcNode (fname : String) (args : List Nat)
  | listNode (children : List Nat)
  | tupleNode (children : List Nat)
  | opNode (op : OperatorData)

/-- IDs held inside a node payload (children of collections, evaluation
arguments of a function, parents and expression references of operators). -/
def IRNodeData.childRefs : IRNodeData → List Nat
  | .funcNode _ args => args
  | .listNode cs => cs
  | .tupleNode cs => cs
  | .opNode (.joinOp parents _ l r _) => parents ++ l ++ r
  | .opNode (.blockingAgg p gs aggs) => p :: (gs ++ aggs.map Prod.snd)
  | .opNode (.dropOp p _) => [p]
  | .opNode (.limitOp p _) => [p]
  | .opNode (.mapOp p ces _) => p :: ces.map Prod.snd
  | .opNode (.filterOp p e) => [p, e]
  | _ => []

/-- OperatorIR and ExpressionIR are disjoint families: IsExpression holds of
every node kind that is not an operator. -/
def IRNodeData.isExpression : IRNodeData → Bool
  | .opNode _ => false
  | _ => true

/-- The IR graph store: a monotonically increasing ID counter and the
association of live IDs to node payloads. -/
structure IR where
  nextId : Nat
  nodes : List (Nat × IRNodeData)

/-- Lookup of the first binding of an ID in an association list. -/
def lookupId : List (Nat × IRNodeData) → Nat → Option IRNodeData
  | [], _ => none
  | (a, d) :: rest, i => if a = i then some d else lookupId rest i

def IR.find? (g : IR) (i : Nat) : Option IRNodeData :=
  lookupId g.nodes i

/-- CreateNode: allocate a fresh non-reusable ID for the payload. -/
def IR.createNode (g : IR) (d : IRNodeData) : IR × Nat :=
  (⟨g.nextId + 1, g.nodes ++ [(g.nextId, d)]⟩, g.nextId)

def removeIdL : List (Nat × IRNodeData) → Nat → List (Nat × IRNodeData)
  | [], _ => []
  | (a, d) :: rest, i => if a = i then removeIdL rest i
                         else (a, d) :: removeIdL rest i

def IR.removeId (g : IR) (i : Nat) : IR :=
  ⟨g.nextId, removeIdL g.nodes i⟩

def updateIdL : List (Nat × IRNodeData) → Nat → IRNodeData → List (Nat × IRNodeData)
  | [], _, _ => []
  | (a, x) :: rest, i, d => if a = i then (a, d) :: updateIdL rest i d
                            else (a, x) :: updateIdL rest i d

/-- In-place mutation of a node payload (FuncIR::AddArg is modelled as an
update of the function node with the extended argument list). -/
def IR.updateNode (g : IR) (i : Nat) (d : IRNodeData) : IR :=
  ⟨g.nextId, updateIdL g.nodes i d⟩

/-- Whether some live node of the graph holds a reference to the ID. -/
def IR.referenced (g : IR) (i : Nat) : Bool :=
  g.nodes.any (fun p => p.2.childRefs.contains i)

/-- Modelled from the spec: IR::DeleteNode is absent from the provided
sources; per section 4.1 it fails if the node is still referenced by a live
node and otherwise removes exactly that node. -/
def IR.deleteNode (g : IR) (i : Nat) : Except Failure IR :=
  if g.referenced i then .error (.structured "DeleteNode: node is still referenced")
  else .ok (g.removeId i)

/-- Modelled from the spec: IR::DeleteNodeAndChildren is absent from the
provided sources; per section 4.1 it recursively deletes an expression
subtree.  The recursion is bounded by a fuel argument (the graph size). -/
def IR.deleteSubtree : Nat → IR → Nat → IR
  | 0, g, i => g.removeId i
  | fuel + 1, g, i =>
    let kids := match g.find? i with
                | some d => d.childRefs
                | none => []
    kids.foldl (fun h c => IR.deleteSubtree fuel h c) (g.removeId i)

def IR.deleteNodeAndChildren (g : IR) (i : Nat) : IR :=
  IR.deleteSubtree g.nodes.length g i

/-- Well-formedness of a graph: every live ID is below the allocation
counter, so freshly created IDs never collide with live ones. -/
@[reducible] def IR.WF (g : IR) : Prop :=
  ∀ p ∈ g.nodes, p.1 < g.nextId

/- ### Matching predicates (the Node Type System) -/

def matchString (g : IR) (i : Nat) : Bool :=
  match g.find? i with
  | some (.strNode _) => true
  | _ => false

def childrenAllString (g : IR) (cs : List Nat) : Bool :=
  cs.all (fun c => matchString g c)

/-- Match(node, ListWithChildren(String())). -/
def matchListWithChildrenString (g : IR) (i : Nat) : Bool :=
  match g.find? i with
  | some (.listNode cs) => childrenAllString g cs
  | _ => false

/-- Match(node, CollectionWithChildren(String())): a collection is a list or
a tuple. -/
def matchCollectionWithChildrenString (g : IR) (i : Nat) : Bool :=
  match g.find? i with
  | some (.listNode cs) => childrenAllString g cs
  | some (.tupleNode cs) => childrenAllString g cs
  | _ => false

/-- Children of a collection node. -/
def collectionChildrenOf (g : IR) (i : Nat) : List Nat :=
  match g.find? i with
  | some (.listNode cs) => cs
  | some (.tupleNode cs) => cs
  | _ => []

/-- Modelled from the spec: ParseStringsFromCollection is absent from the
provided sources; it extracts the string of every child of a collection and
produces a structured wrong-argument-kind error on a non-string child. -/
def parseStringsFromCollection (g : IR) : List Nat → Except Failure (List String)
  | [] => .ok []
  | c :: rest =>
    match g.find? c with
    | some (.strNode s) =>
      match parseStringsFromCollection g rest with
      | .ok ss => .ok (s :: ss)
      | .error e => .error e
    | _ => .error (.structured "Collection can only contain strings")

/-- The strings held by the children of a collection, when they are all
string nodes. -/
def stringsOf? (g : IR) : List Nat → Option (List String)
  | [] => some []
  | c :: rest =>
    match g.find? c with
    | some (.strNode s) => (stringsOf? g rest).map (fun ss => s :: ss)
    | _ => none

/- ### JoinHandler -/

/-- Modelled from the spec: the JoinIR constructor maps the how string onto
the join-type enum INNER, LEFT_OUTER or FULL_OUTER; a right-outer join is
pre-normalized by the caller, so an unknown name is a semantic error. -/
def joinTypeFromString (how : String) : Except Failure JoinType :=
  if how = "inner" then .ok .inner
  else if how = "left" then .ok .left_outer
  else if how = "outer" then .ok .full_outer
  else .error (.structured ("Join type " ++ how ++ " not supported"))

/-- Modelled from the spec: JoinIR construction (absent from the provided
sources) stores both parents in order, pairs the left_on and right_on
columns into equality conditions (a length mismatch is an error) and keeps
the suffix strings. -/
def createJoinNode (g : IR) (parents : List Nat) (how : String)
    (leftOnCols rightOnCols : List Nat) (suffixStrs : List String) :
    IR × Except Failure Nat :=
  match joinTypeFromString how with
  | .error e => (g, .error e)
  | .ok jt =>
    if leftOnCols.length = rightOnCols.length then
      let r := g.createNode (.opNode (.joinOp parents jt leftOnCols rightOnCols suffixStrs))
      (r.1, .ok r.2)
    else
      (g, .error (.structured "left_on and right_on must contain the same number of elements"))

/-- The pairwise equality conditions of a Join operator node. -/
def OperatorData.equalityConditions : OperatorData → List (Nat × Nat)
  | .joinOp _ _ l r _ => l.zip r
  | _ => []

/-- Column creation loop of JoinHandler::ProcessCols over the children of a
list node: every child was matched as a string; a non-string child would be
an unchecked static_cast, modelled as an assertion failure. -/
def createColsFromChildren (g : IR) (parentIndex : Nat) :
    List Nat → IR × Except Failure (List Nat)
  | [] => (g, .ok [])
  | c :: rest =>
    match g.find? c with
    | some (.strNode s) =>
      let r := g.createNode (.columnNode s parentIndex)
      match createColsFromChildren r.1 parentIndex rest with
      | (g2, .ok cids) => (g2, .ok (r.2 :: cids))
      | (g2, .error e) => (g2, .error e)
    | _ => (g, .error (.assertionFailure "static_cast of a non-string child to StringIR"))

/-- JoinHandler::ProcessCols: a list of strings becomes one ColumnIR per
child at the given parent index; a single string becomes one ColumnIR;
anything else is a structured error. -/
def JoinHandler.processCols (g : IR) (nodeId : Nat) (argName : String)
    (parentIndex : Nat) : IR × Except Failure (List Nat) :=
  match g.find? nodeId with
  | some (.listNode cs) =>
    if childrenAllString g cs then
      createColsFromChildren g parentIndex cs
    else
      (g, .error (.structured (argName ++ " must be a label or a list of labels")))
  | some (.strNode s) =>
    let r := g.createNode (.columnNode s parentIndex)
    (r.1, .ok [r.2])
  | some _ => (g, .error (.structured (argName ++ " must be a label or a list of labels")))
  | none => (g, .error (.assertionFailure "DCHECK: node is null"))

/-- The suffixes-checking tail of JoinHandler::Eval: the argument must match
CollectionWithChildren(String()), its parsed strings must number exactly 2,
and then the Join node is created with both parents. -/
def JoinHandler.suffixStep (g : IR) (dfOp rightId suffixesId : Nat)
    (howType : String) (leftOnCols rightOnCols : List Nat) :
    IR × Except Failure Nat :=
  if matchCollectionWithChildrenString g suffixesId then
    match parseStringsFromCollection g (collectionChildrenOf g suffixesId) with
    | .ok suffixStrs =>
      if suffixStrs.length = 2 then
        createJoinNode g [dfOp, rightId] howType leftOnCols rightOnCols suffixStrs
      else
        (g, .error (.structured ("suffixes must be a tuple with 2 elements. Received " ++
          toString suffixStrs.length)))
    | .error e => (g, .error e)
  else
    (g, .error (.structured "suffixes must be a tuple with 2 strings for the left and right suffixes"))

/-- JoinHandler::Eval: right must be an operator, how a string; left_on and
right_on are converted to columns at parent indices 0 and 1; then the
suffixes are checked and the Join node is created. -/
def JoinHandler.eval (g : IR) (dfOp rightId howId leftOnId rightOnId suffixesId : Nat) :
    IR × Except Failure Nat :=
  match g.find? rightId with
  | some (.opNode _) =>
    match g.find? howId with
    | some (.strNode howType) =>
      match JoinHandler.processCols g leftOnId "left_on" 0 with
      | (g1, .ok leftOnCols) =>
        match JoinHandler.processCols g1 rightOnId "right_on" 1 with
        | (g2, .ok rightOnCols) =>
          JoinHandler.suffixStep g2 dfOp rightId suffixesId howType leftOnCols rightOnCols
        | (g2, .error e) => (g2, .error e)
      | (g1, .error e) => (g1, .error e)
    | some _ => (g, .error (.structured "how must be a string"))
    | none => (g, .error (.assertionFailure "GetArg: how is null"))
  | some _ => (g, .error (.structured "right must be an operator"))
  | none => (g, .error (.assertionFailure "GetArg: right is null"))

/- ### AggHandler -/

/-- AggHandler::ParseNameTuple: the tuple must hold a string and a function
with an empty evaluation-argument list; a ColumnIR named by the string at
parent index 0 is created and spliced into the function, and the consumed
tuple node is deleted. -/
def AggHandler.parseNameTuple (g : IR) (tid : Nat) : IR × Except Failure Nat :=
  match g.find? tid with
  | some (.tupleNode cs) =>
    match cs with
    | [c1, c2] =>
      match g.find? c1 with
      | some (.strNode argcolName) =>
        match g.find? c2 with
        | some (.funcNode fname fargs) =>
          if fargs.length = 0 then
            let r := g.createNode (.columnNode argcolName 0)
            let g2 := r.1.updateNode c2 (.funcNode fname (fargs ++ [r.2]))
            match g2.deleteNode tid with
            | .ok g3 => (g3, .ok c2)
            | .error e => (g2, .error e)
          else
            (g, .error (.structured "Unexpected aggregate function"))
        | _ => (g, .error (.structured "Expected func for second tuple argument"))
      | _ => (g, .error (.structured "Expected str for first tuple argument"))
    | _ => (g, .error (.assertionFailure "DCHECK_EQ: tuple does not have 2 children"))
  | _ => (g, .error (.assertionFailure "static_cast of a non-tuple node to TupleIR"))

/-- The kwargs loop of AggHandler::Eval: each keyword value must be a tuple,
which ParseNameTuple turns into a named aggregate expression. -/
def AggHandler.evalKwargs (g : IR) :
    List (String × Nat) → IR × Except Failure (List (String × Nat))
  | [] => (g, .ok [])
  | (name, exprId) :: rest =>
    match g.find? exprId with
    | some (.tupleNode _) =>
      match AggHandler.parseNameTuple g exprId with
      | (g1, .ok fid) =>
        match AggHandler.evalKwargs g1 rest with
        | (g2, .ok restExprs) => (g2, .ok ((name, fid) :: restExprs))
        | (g2, .error e) => (g2, .error e)
      | (g1, .error e) => (g1, .error e)
    | _ => (g, .error (.structured "Expected kwarg argument to be a tuple"))

/-- AggHandler::Eval: desugars the keyword arguments and creates a
BlockingAgg node with an empty group-column list. -/
def AggHandler.eval (g : IR) (dfOp : Nat) (kwargs : List (String × Nat)) :
    IR × Except Failure Nat :=
  match AggHandler.evalKwargs g kwargs with
  | (g1, .ok aggExprs) =>
    let r := g1.createNode (.opNode (.blockingAgg dfOp [] aggExprs))
    (r.1, .ok r.2)
  | (g1, .error e) => (g1, .error e)

/- ### DropHandler -/

/-- DropHandler::Eval: columns must be a list; its strings are stored on the
Drop node and the consumed list node is deleted together with its
children. -/
def DropHandler.eval (g : IR) (dfOp columnsId : Nat) : IR × Except Failure Nat :=
  match g.find? columnsId with
  | some (.listNode cs) =>
    match parseStringsFromCollection g cs with
    | .ok columns =>
      let r := g.createNode (.opNode (.dropOp dfOp columns))
      (r.1.deleteNodeAndChildren columnsId, .ok r.2)
    | .error e => (g, .error e)
  | some _ => (g, .error (.structured "Expected columns to be a list"))
  | none => (g, .error (.assertionFailure "GetArg: columns is null"))

/- ### LimitHandler -/

/-- LimitHandler::Eval: n must be an integer; the Limit node stores its
value and the consumed integer node is deleted. -/
def LimitHandler.eval (g : IR) (dfOp rowsId : Nat) : IR × Except Failure Nat :=
  match g.find? rowsId with
  | some (.intNode n) =>
    let r := g.createNode (.opNode (.limitOp dfOp n))
    match r.1.deleteNode rowsId with
    | .ok g2 => (g2, .ok r.2)
    | .error e => (r.1, .error e)
  | some _ => (g, .error (.structured "n must be an int"))
  | none => (g, .error (.assertionFailure "GetArg: n is null"))

/- ### SubscriptHandler -/

/-- SubscriptHandler::EvalFilter: the Filter node adopts the expression
directly. -/
def SubscriptHandler.evalFilter (g : IR) (dfOp exprId : Nat) : IR × Except Failure Nat :=
  let r := g.createNode (.opNode (.filterOp dfOp exprId))
  (r.1, .ok r.2)

/-- The column-creation loop of SubscriptHandler::EvalKeep: one new ColumnIR
at parent index 0 per kept name, paired with the name. -/
def createKeepCols (g : IR) : List String → IR × List (String × Nat)
  | [] => (g, [])
  | n :: rest =>
    let r := g.createNode (.columnNode n 0)
    let s := createKeepCols r.1 rest
    (s.1, (n, r.2) :: s.2)

/-- SubscriptHandler::EvalKeep: parse the kept names, create the columns and
the Map node with keep_input_columns set to false. -/
def SubscriptHandler.evalKeep (g : IR) (dfOp : Nat) (cs : List Nat) :
    IR × Except Failure Nat :=
  match parseStringsFromCollection g cs with
  | .ok names =>
    let s := createKeepCols g names
    let r := s.1.createNode (.opNode (.mapOp dfOp s.2 false))
    (r.1, .ok r.2)
  | .error e => (g, .error e)

/-- SubscriptHandler::Eval: the key must be an expression; a list key selects
columns (Map), any other expression is a filter predicate (Filter). -/
def SubscriptHandler.eval (g : IR) (dfOp keyId : Nat) : IR × Except Failure Nat :=
  match g.find? keyId with
  | some d =>
    if d.isExpression then
      match d with
      | .listNode cs => SubscriptHandler.evalKeep g dfOp cs
      | _ => SubscriptHandler.evalFilter g dfOp keyId
    else
      (g, .error (.structured "subscript argument must have an expression"))
  | none => (g, .error (.assertionFailure "GetArg: key is null"))

/- ### OpenTelemetry builders (otel.cc) -/

/-- Primitive data types referenced by the expected-column descriptors. -/
inductive PrimDataType where
  | STRING
  | INT64
  | FLOAT64
  | TIME64NS

/-- OTelSpanKind_IsValid, generated from the OTelSpanKind enum of
plan.proto whose values are 0 (unspecified), 1 (internal) and 2 (server). -/
def OTelSpanKind_IsValid (n : Int) : Bool :=
  n == 0 || n == 1 || n == 2

/-- OTelAttribute message: attribute name and the column that populates
it. -/
structure OTelAttributePB where
  name : String
  value_column : String

/-- ValueAtQuantile message.  The quantile is a double on the wire; its
payload is carried opaquely here (it is only copied, never computed
with). -/
structure ValueAtQuantilePB where
  quantile : Int
  value_column : String

structure OTelMetricGaugePB where
  value_column : String := ""

structure OTelMetricSummaryPB where
  count_column : String := ""
  sum_column : String := ""
  quantile_values : List ValueAtQuantilePB := []

/-- The data oneof of the OTelMetric message. -/
inductive OTelMetricDataOneof where
  | unset
  | gauge (g : OTelMetricGaugePB)
  | summary (s : OTelMetricSummaryPB)

structure OTelMetricPB where
  name : String := ""
  description : String := ""
  attributes : List OTelAttributePB := []
  data : OTelMetricDataOneof := .unset
  start_time_unix_nano_column : String := ""
  time_unix_nano_column : String := ""

structure OTelSpanPB where
  name : String := ""
  attributes : List OTelAttributePB := []
  trace_id_column : String := ""
  span_id_column : String := ""
  parent_span_id_column : String := ""
  start_time_unix_nano_column : String := ""
  end_time_unix_nano_column : String := ""
  kind : Int := 0
  status_column : String := ""

structure OTelEndpointConfigPB where
  url : String := ""
  attributes : List (String × String) := []

/-- OTelExportSinkOperator: endpoint configuration plus the span-or-metric
data_config oneof. -/
structure OTelExportSinkPB where
  endpoint_config : OTelEndpointConfigPB := {}
  span : Option OTelSpanPB := none
  metric : Option OTelMetricPB := none

/-- ExpectedColumn descriptor: role name, resolved column name and accepted
type set.  The source also stores the originating StringIR node, which is
fully determined by the column name here. -/
structure ExpectedColumn where
  roleName : String
  colName : String
  types : List PrimDataType

/-- QLObject values passed to the OTel builders: expression objects wrapping
string, int and float IR nodes, dictionaries, endpoint configurations,
OTelMetricData values and any other object (named, for error messages). -/
inductive QLVal where
  | strV (s : String)
  | intV (n : Int)
  | floatV (v : Int)
  | dictV (keys vals : List QLVal)
  | endpointV (pb : OTelEndpointConfigPB)
  | metricDataV (pb : OTelMetricPB) (columns : List ExpectedColumn)
  | otherV (objName : String)

/-- GetArgAs of a StringIR: a structured wrong-argument-kind error when the
value does not wrap a string node. -/
def getArgAsStringIR (argName : String) (v : QLVal) : Except Failure String :=
  match v with
  | .strV s => .ok s
  | _ => .error (.structured ("Expected " ++ argName ++ " to be a string"))

def getArgAsIntIR (argName : String) (v : QLVal) : Except Failure Int :=
  match v with
  | .intV n => .ok n
  | _ => .error (.structured ("Expected " ++ argName ++ " to be an int"))

def getArgAsFloatIR (argName : String) (v : QLVal) : Except Failure Int :=
  match v with
  | .floatV q => .ok q
  | _ => .error (.structured ("Expected " ++ argName ++ " to be a float"))

/-- ParseEndpointConfig: the endpoint argument must be an EndpointConfig
value; its serialized form is adopted. -/
def parseEndpointConfig (v : QLVal) : Except Failure OTelEndpointConfigPB :=
  match v with
  | .endpointV pb => .ok pb
  | _ => .error (.structured "expected Endpoint type for endpoint arg")

/-- The attribute loop shared by the span and metric builders: each key must
wrap a string (the attribute name) and each value a string (the column
name); one expected column per attribute. -/
def processOTelAttributePairs :
    List (QLVal × QLVal) → Except Failure (List OTelAttributePB × List ExpectedColumn)
  | [] => .ok ([], [])
  | (k, v) :: rest =>
    Except.bind (getArgAsStringIR "attribute" k) fun key =>
    Except.bind (getArgAsStringIR "attribute value column" v) fun val =>
    Except.bind (processOTelAttributePairs rest) fun r =>
    .ok (⟨key, val⟩ :: r.1, ⟨"attribute", val, [.STRING]⟩ :: r.2)

/-- The quantile loop of the summary builder: each key must wrap a float
(the quantile) and each value a string (the column name). -/
def processQuantilePairs :
    List (QLVal × QLVal) → Except Failure (List ValueAtQuantilePB × List ExpectedColumn)
  | [] => .ok ([], [])
  | (k, v) :: rest =>
    Except.bind (getArgAsFloatIR "quantile" k) fun q =>
    Except.bind (getArgAsStringIR "quantile value column" v) fun val =>
    Except.bind (processQuantilePairs rest) fun r =>
    .ok (⟨q, val⟩ :: r.1, ⟨toString q, val, [.FLOAT64]⟩ :: r.2)

/-- The named arguments of the span builder, already resolved to QLObject
values. -/
structure SpanArgs where
  name : QLVal
  start_time_unix_nano : QLVal
  end_time_unix_nano : QLVal
  span_id : QLVal
  parent_span_id : QLVal
  trace_id : QLVal
  status : QLVal
  kind : QLVal
  attributes : QLVal
  endpoint : QLVal

/-- OTelSpanDefinition: parses the endpoint, the name, the id columns, the
status column, the time columns and the kind (whose integer must be a valid
OTelSpanKind value), then iterates the attribute dictionary, whose key and
value lists are asserted (CHECK_EQ) to have equal length. -/
def OTelSpanDefinition (args : SpanArgs) :
    Except Failure (OTelExportSinkPB × List ExpectedColumn) :=
  Except.bind (parseEndpointConfig args.endpoint) fun endpoint_config =>
  Except.bind (getArgAsStringIR "name" args.name) fun name =>
  Except.bind (getArgAsStringIR "span_id" args.span_id) fun span_id_column =>
  Except.bind (getArgAsStringIR "parent_span_id" args.parent_span_id)
    fun parent_span_id_column =>
  Except.bind (getArgAsStringIR "trace_id" args.trace_id) fun trace_id_column =>
  Except.bind (getArgAsStringIR "status" args.status) fun status_column =>
  Except.bind (getArgAsStringIR "start_time_unix_nano" args.start_time_unix_nano)
    fun start_time_unix_nano_column =>
  Except.bind (getArgAsStringIR "end_time_unix_nano" args.end_time_unix_nano)
    fun end_time_unix_nano_column =>
  Except.bind (getArgAsIntIR "kind" args.kind) fun kindVal =>
  if OTelSpanKind_IsValid kindVal then
    match args.attributes with
    | .dictV keys vals =>
      if vals.length = keys.length then
        Except.bind (processOTelAttributePairs (keys.zip vals)) fun r =>
        .ok ({ endpoint_config := endpoint_config,
               span := some { name := name,
                              attributes := r.1,
                              trace_id_column := trace_id_column,
                              span_id_column := span_id_column,
                              parent_span_id_column := parent_span_id_column,
                              start_time_unix_nano_column := start_time_unix_nano_column,
                              end_time_unix_nano_column := end_time_unix_nano_column,
                              kind := kindVal,
                              status_column := status_column } },
             [⟨"span_id", span_id_column, [.STRING]⟩,
              ⟨"parent_span_id", parent_span_id_column, [.STRING]⟩,
              ⟨"trace_id", trace_id_column, [.STRING]⟩,
              ⟨"status", status_column, [.INT64]⟩,
              ⟨"start_time_unix_nano", start_time_unix_nano_column, [.TIME64NS]⟩,
              ⟨"end_time_unix_nano", end_time_unix_nano_column, [.TIME64NS]⟩] ++ r.2)
      else
        .error (.assertionFailure "CHECK_EQ: attribute values and keys sizes differ")
    | _ => .error (.structured "Expected attributes to be a dictionary")
  else
    .error (.structured ("Kind value " ++ toString kindVal ++ " is not a valid option"))

/-- The named arguments of the metric builder. -/
structure MetricArgs where
  name : QLVal
  description : QLVal
  data : QLVal
  attributes : QLVal
  endpoint : QLVal

/-- OTelMetricDefinition: the data argument must be an OTelMetricData value;
the endpoint, name and description are parsed and the attribute dictionary
is iterated under the same CHECK_EQ length assertion. -/
def OTelMetricDefinition (args : MetricArgs) :
    Except Failure (OTelExportSinkPB × List ExpectedColumn) :=
  match args.data with
  | .metricDataV mpb mcols =>
    Except.bind (parseEndpointConfig args.endpoint) fun endpoint_config =>
    Except.bind (getArgAsStringIR "name" args.name) fun name =>
    Except.bind (getArgAsStringIR "description" args.description) fun description =>
    match args.attributes with
    | .dictV keys vals =>
      if vals.length = keys.length then
        Except.bind (processOTelAttributePairs (keys.zip vals)) fun r =>
        .ok ({ endpoint_config := endpoint_config,
               metric := some { mpb with
                                name := name,
                                description := description,
                                attributes := mpb.attributes ++ r.1 } },
             mcols ++ r.2)
      else
        .error (.assertionFailure "CHECK_EQ: attribute values and keys sizes differ")
    | _ => .error (.structured "Expected attributes to be a dictionary")
  | _ => .error (.structured "Expected an OTelMetricData type")

/-- The named arguments of the summary builder. -/
structure SummaryArgs where
  start_time_unix_nano : QLVal
  time_unix_nano : QLVal
  count : QLVal
  sum : QLVal
  quantile_values : QLVal

/-- OTelSummaryDefinition: parses the count and sum columns, iterates the
quantile dictionary under the CHECK_EQ length assertion, then parses the two
time columns and produces the OTelMetricData payload. -/
def OTelSummaryDefinition (args : SummaryArgs) :
    Except Failure (OTelMetricPB × List ExpectedColumn) :=
  Except.bind (getArgAsStringIR "count" args.count) fun count_column =>
  Except.bind (getArgAsStringIR "sum" args.sum) fun sum_column =>
  match args.quantile_values with
  | .dictV keys vals =>
    if vals.length = keys.length then
      Except.bind (processQuantilePairs (keys.zip vals)) fun r =>
      Except.bind (getArgAsStringIR "start_time_unix_nano" args.start_time_unix_nano)
        fun start_col =>
      Except.bind (getArgAsStringIR "time_unix_nano" args.time_unix_nano)
        fun time_col =>
      .ok ({ data := .summary ⟨count_column, sum_column, r.1⟩,
             start_time_unix_nano_column := start_col,
             time_unix_nano_column := time_col },
           ⟨"count", count_column, [.FLOAT64]⟩ ::
           ⟨"sum", sum_column, [.FLOAT64]⟩ ::
           (r.2 ++ [⟨"start_time_unix_nano", start_col, [.TIME64NS]⟩,
                    ⟨"time_unix_nano", time_col, [.TIME64NS]⟩]))
    else
      .error (.assertionFailure "CHECK_EQ: quantile values and keys sizes differ")
  | _ => .error (.structured "Expected quantile_values to be a dictionary")

/-- A valid left_on/right_on argument: a single string node, or a list node
whose children are string nodes, with ns the named labels in order. -/
def ColsArgNames (g : IR) (nid : Nat) (ns : List String) : Prop :=
  (∃ s, g.find? nid = some (.strNode s) ∧ ns = [s]) ∨
  (∃ cs, g.find? nid = some (.listNode cs) ∧ stringsOf? g cs = some ns)

/-- A valid suffixes argument: a collection (list or tuple) node whose
children are exactly 2 string nodes. -/
def SuffixOK (g : IR) (i : Nat) : Prop :=
  ∃ cs ns, (g.find? i = some (.listNode cs) ∨ g.find? i = some (.tupleNode cs)) ∧
    stringsOf? g cs = some ns ∧ ns.length = 2

/-- A result that is not a CHECK/DCHECK abort: it is either a success or a
recoverable structured error. -/
def NoAssertionResult {α : Type} (r : Except Failure α) : Prop :=
  ∀ m, r ≠ .error (.assertionFailure m)

/-- The key/value length invariant of a dictionary argument. -/
def DictLenOK : QLVal → Prop
  | .dictV keys vals => vals.length = keys.length
  | _ => True

/- ### Basic lemmas about the graph store -/

theorem lookupId_mem {l : List (Nat × IRNodeData)} {i : Nat} {x : IRNodeData}
    (h : lookupId l i = some x) : (i, x) ∈ l := by
  induction l with
  | nil => simp [lookupId] at h
  | cons p rest ih =>
    obtain ⟨a, b⟩ := p
    simp only [lookupId] at h
    by_cases ha : a = i
    · rw [if_pos ha] at h
      cases h
      subst ha
      exact List.mem_cons_self _ _
    · rw [if_neg ha] at h
      exact List.mem_cons_of_mem _ (ih h)

theorem lookupId_none_of_lt {l : List (Nat × IRNodeData)} {n : Nat}
    (h : ∀ p ∈ l, p.1 < n) : lookupId l n = none := by
  induction l with
  | nil => rfl
  | cons p rest ih =>
    obtain ⟨a, b⟩ := p
    simp only [lookupId]
    have hp := h (a, b) (by simp)
    simp only at hp
    rw [if_neg (by omega)]
    exact ih (fun q hq => h q (by simp [hq]))

theorem lookupId_append_single (l : List (Nat × IRNodeData)) (n : Nat)
    (d : IRNodeData) (i : Nat) :
    lookupId (l ++ [(n, d)]) i =
      match lookupId l i with
      | some x => some x
      | none => if n = i then some d else none := by
  induction l with
  | nil => simp [lookupId]
  | cons p rest ih =>
    obtain ⟨a, b⟩ := p
    simp only [List.cons_append, lookupId, List.append_eq]
    by_cases ha : a = i
    · rw [if_pos ha, if_pos ha]
    · rw [if_neg ha, if_neg ha, ih]

theorem lookupId_removeIdL (l : List (Nat × IRNodeData)) (j i : Nat) :
    lookupId (removeIdL l j) i = if i = j then none else lookupId l i := by
  induction l with
  | nil => simp [removeIdL, lookupId]
  | cons p rest ih =>
    obtain ⟨a, b⟩ := p
    simp only [removeIdL]
    by_cases haj : a = j
    · rw [if_pos haj, ih]
      by_cases hij : i = j
      · rw [if_pos hij, if_pos hij]
      · have hai : ¬ a = i := by omega
        rw [if_neg hij, if_neg hij]
        simp only [lookupId]
        rw [if_neg hai]
    · rw [if_neg haj]
      simp only [lookupId]
      by_cases hai : a = i
      · have hij : ¬ i = j := by omega
        rw [if_pos hai, if_pos hai, if_neg hij]
      · rw [if_neg hai, if_neg hai, ih]

theorem lookupId_updateIdL (l : List (Nat × IRNodeData)) (j : Nat)
    (d : IRNodeData) (i : Nat) :
    lookupId (updateIdL l j d) i =
      if i = j then
        match lookupId l j with
        | some _ => some d
        | none => none
      else lookupId l i := by
  induction l with
  | nil => simp [updateIdL, lookupId]
  | cons p rest ih =>
    obtain ⟨a, x⟩ := p
    simp only [updateIdL]
    by_cases haj : a = j
    · rw [if_pos haj]
      simp only [lookupId]
      by_cases hij : i = j
      · subst hij
        rw [if_pos haj, if_pos rfl, if_pos haj]
      · have hai : ¬ a = i := by omega
        rw [if_neg hai, ih, if_neg hij, if_neg hij, if_neg hai]
    · rw [if_neg haj]
      simp only [lookupId]
      rw [if_neg haj]
      by_cases hai : a = i
      · have hij : ¬ i = j := by omega
        rw [if_pos hai, if_neg hij, if_pos hai]
      · rw [if_neg hai, ih, if_neg hai]

theorem updateIdL_fst_mem {l : List (Nat × IRNodeData)} {j : Nat} {d : IRNodeData}
    {p : Nat × IRNodeData} (h : p ∈ updateIdL l j d) : ∃ q ∈ l, q.1 = p.1 := by
  induction l with
  | nil => simp [updateIdL] at h
  | cons q rest ih =>
    obtain ⟨a, x⟩ := q
    simp only [updateIdL] at h
    by_cases ha : a = j
    · rw [if_pos ha] at h
      rcases List.mem_cons.mp h with h | h
      · exact ⟨(a, x), by simp, by rw [h]⟩
      · obtain ⟨q', hq', hfst⟩ := ih h
        exact ⟨q', List.mem_cons_of_mem _ hq', hfst⟩
    · rw [if_neg ha] at h
      rcases List.mem_cons.mp h with h | h
      · exact ⟨(a, x), by simp, by rw [h]⟩
      · obtain ⟨q', hq', hfst⟩ := ih h
        exact ⟨q', List.mem_cons_of_mem _ hq', hfst⟩

theorem removeIdL_subset {l : List (Nat × IRNodeData)} {j : Nat}
    {p : Nat × IRNodeData} (h : p ∈ removeIdL l j) : p ∈ l := by
  induction l with
  | nil => simp [removeIdL] at h
  | cons q rest ih =>
    obtain ⟨a, x⟩ := q
    simp only [removeIdL] at h
    by_cases ha : a = j
    · rw [if_pos ha] at h
      exact List.mem_cons_of_mem _ (ih h)
    · rw [if_neg ha] at h
      rcases List.mem_cons.mp h with h | h
      · simp [h]
      · exact List.mem_cons_of_mem _ (ih h)

/- find? lemmas -/

theorem find?_createNode_preserved {g : IR} {d : IRNodeData} {i : Nat}
    {x : IRNodeData} (h : g.find? i = some x) :
    (g.createNode d).1.find? i = some x := by
  simp only [IR.find?, IR.createNode] at *
  rw [lookupId_append_single, h]

theorem find?_createNode_self {g : IR} {d : IRNodeData} (hwf : g.WF) :
    (g.createNode d).1.find? (g.createNode d).2 = some d := by
  simp only [IR.find?, IR.createNode]
  rw [lookupId_append_single, lookupId_none_of_lt hwf, if_pos rfl]

theorem find?_createNode_cases {g : IR} {d : IRNodeData} {i : Nat}
    {x : IRNodeData} (h : (g.createNode d).1.find? i = some x) :
    g.find? i = some x ∨ (g.find? i = none ∧ i = g.nextId ∧ x = d) := by
  simp only [IR.find?, IR.createNode] at *
  rw [lookupId_append_single] at h
  cases hl : lookupId g.nodes i with
  | some y => rw [hl] at h; cases h; exact Or.inl rfl
  | none =>
    rw [hl] at h
    by_cases hn : g.nextId = i
    · rw [if_pos hn] at h
      cases h
      exact Or.inr ⟨rfl, hn.symm, rfl⟩
    · rw [if_neg hn] at h
      cases h

theorem find?_createNode_none {g : IR} {d : IRNodeData} {i : Nat}
    (hi : i ≠ g.nextId) (h : g.find? i = none) :
    (g.createNode d).1.find? i = none := by
  simp only [IR.find?, IR.createNode] at *
  rw [lookupId_append_single, h, if_neg (fun hn => hi hn.symm)]

theorem find?_removeId (g : IR) (j i : Nat) :
    (g.removeId j).find? i = if i = j then none else g.find? i := by
  simp only [IR.find?, IR.removeId]
  exact lookupId_removeIdL g.nodes j i

theorem find?_updateNode (g : IR) (j : Nat) (d : IRNodeData) (i : Nat) :
    (g.updateNode j d).find? i =
      if i = j then
        match g.find? j with
        | some _ => some d
        | none => none
      else g.find? i := by
  simp only [IR.find?, IR.updateNode]
  exact lookupId_updateIdL g.nodes j d i

/- WF and nextId lemmas -/

theorem WF_createNode {g : IR} {d : IRNodeData} (h : g.WF) :
    (g.createNode d).1.WF := by
  intro p hp
  simp only [IR.createNode] at hp ⊢
  rcases List.mem_append.mp hp with hp | hp
  · exact Nat.lt_succ_of_lt (h p hp)
  · rw [List.mem_singleton] at hp
    subst hp
    exact Nat.lt_succ_self _

theorem WF_removeId {g : IR} {j : Nat} (h : g.WF) : (g.removeId j).WF := by
  intro p hp
  exact h p (removeIdL_subset hp)

theorem WF_updateNode {g : IR} {j : Nat} {d : IRNodeData} (h : g.WF) :
    (g.updateNode j d).WF := by
  intro p hp
  obtain ⟨q, hq, hfst⟩ := updateIdL_fst_mem hp
  simpa only [IR.updateNode, ← hfst] using h q hq

theorem find?_lt_nextId {g : IR} {i : Nat} {x : IRNodeData} (hwf : g.WF)
    (h : g.find? i = some x) : i < g.nextId :=
  hwf (i, x) (lookupId_mem h)

theorem nextId_createNode (g : IR) (d : IRNodeData) :
    (g.createNode d).1.nextId = g.nextId + 1 := rfl

theorem nextId_removeId (g : IR) (j : Nat) : (g.removeId j).nextId = g.nextId := rfl

theorem nextId_updateNode (g : IR) (j : Nat) (d : IRNodeData) :
    (g.updateNode j d).nextId = g.nextId := rfl

/- stringsOf? lemmas -/

theorem stringsOf?_mem {g : IR} {cs : List Nat} {ns : List String}
    (h : stringsOf? g cs = some ns) :
    ∀ c ∈ cs, ∃ s, g.find? c = some (.strNode s) := by
  induction cs generalizing ns with
  | nil => simp
  | cons c rest ih =>
    intro c' hc'
    simp only [stringsOf?] at h
    cases hf : g.find? c with
    | none => rw [hf] at h; cases h
    | some d =>
      rw [hf] at h
      cases d with
      | strNode s =>
        cases ho : stringsOf? g rest with
        | none => rw [ho] at h; cases h
        | some ns' =>
          rcases List.mem_cons.mp hc' with hc' | hc'
          · exact ⟨s, hc' ▸ hf⟩
          · exact ih ho c' hc'
      | intNode n => cases h
      | floatNode v => cases h
      | columnNode a b => cases h
      | funcNode a b => cases h
      | listNode a => cases h
      | tupleNode a => cases h
      | opNode a => cases h

theorem stringsOf?_mono {g g' : IR} {cs : List Nat} {ns : List String}
    (hmono : ∀ i x, g.find? i = some x → g'.find? i = some x)
    (h : stringsOf? g cs = some ns) : stringsOf? g' cs = some ns := by
  induction cs generalizing ns with
  | nil => exact h
  | cons c rest ih =>
    simp only [stringsOf?] at h ⊢
    cases hf : g.find? c with
    | none => rw [hf] at h; cases h
    | some d =>
      rw [hf] at h
      cases d with
      | strNode s =>
        rw [hmono c _ hf]
        cases ho : stringsOf? g rest with
        | none => rw [ho] at h; cases h
        | some ns' =>
          rw [ho] at h
          rw [ih ho]
          exact h
      | intNode n => cases h
      | floatNode v => cases h
      | columnNode a b => cases h
      | funcNode a b => cases h
      | listNode a => cases h
      | tupleNode a => cases h
      | opNode a => cases h

theorem childrenAllString_of_stringsOf? {g : IR} {cs : List Nat}
    {ns : List String} (h : stringsOf? g cs = some ns) :
    childrenAllString g cs = true := by
  rw [childrenAllString, List.all_eq_true]
  intro c hc
  obtain ⟨s, hs⟩ := stringsOf?_mem h c hc
  simp [matchString, hs]

theorem stringsOf?_of_childrenAllString {g : IR} {cs : List Nat}
    (h : childrenAllString g cs = true) : ∃ ns, stringsOf? g cs = some ns := by
  induction cs with
  | nil => exact ⟨[], rfl⟩
  | cons c rest ih =>
    rw [childrenAllString, List.all_cons, Bool.and_eq_true] at h
    obtain ⟨hc, hrest⟩ := h
    obtain ⟨ns, hns⟩ := ih hrest
    rw [matchString] at hc
    cases hf : g.find? c with
    | none => rw [hf] at hc; cases hc
    | some d =>
      rw [hf] at hc
      cases d with
      | strNode s => exact ⟨s :: ns, by simp [stringsOf?, hf, hns]⟩
      | intNode n => cases hc
      | floatNode v => cases hc
      | columnNode a b => cases hc
      | funcNode a b => cases hc
      | listNode a => cases hc
      | tupleNode a => cases hc
      | opNode a => cases hc

theorem parseStrings_of_stringsOf? {g : IR} {cs : List Nat} {ns : List String}
    (h : stringsOf? g cs = some ns) :
    parseStringsFromCollection g cs = .ok ns := by
  induction cs generalizing ns with
  | nil => cases h; rfl
  | cons c rest ih =>
    simp only [stringsOf?] at h
    simp only [parseStringsFromCollection]
    cases hf : g.find? c with
    | none => rw [hf] at h; cases h
    | some d =>
      rw [hf] at h
      cases d with
      | strNode s =>
        cases ho : stringsOf? g rest with
        | none => rw [ho] at h; cases h
        | some ns' =>
          rw [ho] at h
          cases h
          rw [ih ho]
      | intNode n => cases h
      | floatNode v => cases h
      | columnNode a b => cases h
      | funcNode a b => cases h
      | listNode a => cases h
      | tupleNode a => cases h
      | opNode a => cases h

theorem stringsOf?_length {g : IR} {cs : List Nat} {ns : List String}
    (h : stringsOf? g cs = some ns) : ns.length = cs.length := by
  induction cs generalizing ns with
  | nil => cases h; rfl
  | cons c rest ih =>
    simp only [stringsOf?] at h
    cases hf : g.find? c with
    | none => rw [hf] at h; cases h
    | some d =>
      rw [hf] at h
      cases d with
      | strNode s =>
        cases ho : stringsOf? g rest with
        | none => rw [ho] at h; cases h
        | some ns' => rw [ho] at h; cases h; simp [ih ho]
      | intNode n => cases h
      | floatNode v => cases h
      | columnNode a b => cases h
      | funcNode a b => cases h
      | listNode a => cases h
      | tupleNode a => cases h
      | opNode a => cases h

/- ### JoinHandler lemmas -/

theorem stringsOf?_back {g g2 : IR} {cs : List Nat} {ns : List String}
    (hback : ∀ i x, g2.find? i = some x →
      g.find? i = some x ∨ ∃ nm p, x = IRNodeData.columnNode nm p)
    (h : stringsOf? g2 cs = some ns) : stringsOf? g cs = some ns := by
  induction cs generalizing ns with
  | nil => exact h
  | cons c rest ih =>
    simp only [stringsOf?] at h ⊢
    cases hf : g2.find? c with
    | none => rw [hf] at h; cases h
    | some d =>
      rw [hf] at h
      cases d with
      | strNode s =>
        rcases hback c _ hf with hg | ⟨nm, p, hx⟩
        · rw [hg]
          cases ho : stringsOf? g2 rest with
          | none => rw [ho] at h; cases h
          | some ns' =>
            rw [ho] at h
            rw [ih ho]
            exact h
        · cases hx
      | intNode n => cases h
      | floatNode v => cases h
      | columnNode a b => cases h
      | funcNode a b => cases h
      | listNode a => cases h
      | tupleNode a => cases h
      | opNode a => cases h

theorem createColsFromChildren_ok {cs : List Nat} {ns : List String} {g : IR}
    {p : Nat} (hwf : g.WF) (h : stringsOf? g cs = some ns) :
    ∃ g' cids, createColsFromChildren g p cs = (g', .ok cids) ∧
      g'.WF ∧ g.nextId ≤ g'.nextId ∧
      (∀ i x, g.find? i = some x → g'.find? i = some x) ∧
      (∀ i x, g'.find? i = some x →
        g.find? i = some x ∨ ∃ nm q, x = IRNodeData.columnNode nm q) ∧
      List.Forall₂ (fun nm cid => g'.find? cid = some (.columnNode nm p)) ns cids := by
  induction cs generalizing ns g with
  | nil =>
    cases h
    exact ⟨g, [], rfl, hwf, Nat.le_refl _, fun _ _ hx => hx,
      fun _ _ hx => Or.inl hx, List.Forall₂.nil⟩
  | cons c rest ih =>
    simp only [stringsOf?] at h
    cases hf : g.find? c with
    | none => rw [hf] at h; cases h
    | some d =>
      rw [hf] at h
      cases d with
      | strNode s =>
        cases ho : stringsOf? g rest with
        | none => rw [ho] at h; cases h
        | some ns' =>
          rw [ho] at h
          cases h
          have hwf1 : (g.createNode (.columnNode s p)).1.WF := WF_createNode hwf
          have hmono1 : ∀ i x, g.find? i = some x →
              (g.createNode (.columnNode s p)).1.find? i = some x :=
            fun _ _ hx => find?_createNode_preserved hx
          have ho1 : stringsOf? (g.createNode (.columnNode s p)).1 rest = some ns' :=
            stringsOf?_mono hmono1 ho
          obtain ⟨g', cids, heq, hwf', hle, hmono2, hback2, hfa⟩ := ih hwf1 ho1
          refine ⟨g', (g.createNode (.columnNode s p)).2 :: cids, ?_, hwf', ?_, ?_, ?_, ?_⟩
          · simp only [createColsFromChildren, hf, heq]
          · calc g.nextId ≤ (g.createNode (.columnNode s p)).1.nextId := by
                  rw [nextId_createNode]; omega
              _ ≤ g'.nextId := hle
          · exact fun i x hx => hmono2 i x (hmono1 i x hx)
          · intro i x hx
            rcases hback2 i x hx with hx1 | hx1
            · rcases find?_createNode_cases hx1 with hx2 | ⟨_, _, hx2⟩
              · exact Or.inl hx2
              · exact Or.inr ⟨s, p, hx2⟩
            · exact Or.inr hx1
          · exact List.Forall₂.cons
              (hmono2 _ _ (find?_createNode_self hwf)) hfa
      | intNode n => cases h
      | floatNode v => cases h
      | columnNode a b => cases h
      | funcNode a b => cases h
      | listNode a => cases h
      | tupleNode a => cases h
      | opNode a => cases h

theorem processCols_ok {g : IR} {nid : Nat} {ns : List String} {a : String}
    {p : Nat} (hwf : g.WF) (h : ColsArgNames g nid ns) :
    ∃ g' cids, JoinHandler.processCols g nid a p = (g', .ok cids) ∧
      g'.WF ∧ g.nextId ≤ g'.nextId ∧
      (∀ i x, g.find? i = some x → g'.find? i = some x) ∧
      (∀ i x, g'.find? i = some x →
        g.find? i = some x ∨ ∃ nm q, x = IRNodeData.columnNode nm q) ∧
      List.Forall₂ (fun nm cid => g'.find? cid = some (.columnNode nm p)) ns cids := by
  rcases h with ⟨s, hf, hns⟩ | ⟨cs, hf, hstr⟩
  · subst hns
    refine ⟨(g.createNode (.columnNode s p)).1, [(g.createNode (.columnNode s p)).2],
      ?_, WF_createNode hwf, ?_, ?_, ?_, ?_⟩
    · simp only [JoinHandler.processCols, hf]
    · rw [nextId_createNode]; omega
    · exact fun _ _ hx => find?_createNode_preserved hx
    · intro i x hx
      rcases find?_createNode_cases hx with hx1 | ⟨_, _, hx1⟩
      · exact Or.inl hx1
      · exact Or.inr ⟨s, p, hx1⟩
    · exact List.Forall₂.cons (find?_createNode_self hwf) List.Forall₂.nil
  · obtain ⟨g', cids, heq, hwf', hle, hmono, hback, hfa⟩ :=
      createColsFromChildren_ok hwf hstr
    refine ⟨g', cids, ?_, hwf', hle, hmono, hback, hfa⟩
    simp only [JoinHandler.processCols, hf, childrenAllString_of_stringsOf? hstr,
      if_true, heq]

theorem join_eval_reduce {g : IR}
    {dfOp rightId howId leftOnId rightOnId suffixesId : Nat}
    {od : OperatorData} {how : String} {lns rns : List String}
    (hwf : g.WF)
    (hright : g.find? rightId = some (.opNode od))
    (hhow : g.find? howId = some (.strNode how))
    (hleft : ColsArgNames g leftOnId lns)
    (hrightOn : ColsArgNames g rightOnId rns) :
    ∃ g2 leftCols rightCols,
      JoinHandler.eval g dfOp rightId howId leftOnId rightOnId suffixesId =
        JoinHandler.suffixStep g2 dfOp rightId suffixesId how leftCols rightCols ∧
      g2.WF ∧ g.nextId ≤ g2.nextId ∧
      (∀ i x, g.find? i = some x → g2.find? i = some x) ∧
      (∀ i x, g2.find? i = some x →
        g.find? i = some x ∨ ∃ nm q, x = IRNodeData.columnNode nm q) ∧
      List.Forall₂ (fun nm cid => g2.find? cid = some (.columnNode nm 0)) lns leftCols ∧
      List.Forall₂ (fun nm cid => g2.find? cid = some (.columnNode nm 1)) rns rightCols := by
  obtain ⟨g1, leftCols, heq1, hwf1, hle1, hmono1, hback1, hfa1⟩ :=
    processCols_ok (a := "left_on") (p := 0) hwf hleft
  have hrightOn1 : ColsArgNames g1 rightOnId rns := by
    rcases hrightOn with ⟨s, hf, hns⟩ | ⟨cs, hf, hstr⟩
    · exact Or.inl ⟨s, hmono1 _ _ hf, hns⟩
    · exact Or.inr ⟨cs, hmono1 _ _ hf, stringsOf?_mono hmono1 hstr⟩
  obtain ⟨g2, rightCols, heq2, hwf2, hle2, hmono2, hback2, hfa2⟩ :=
    processCols_ok (a := "right_on") (p := 1) hwf1 hrightOn1
  refine ⟨g2, leftCols, rightCols, ?_, hwf2, Nat.le_trans hle1 hle2,
    fun i x hx => hmono2 i x (hmono1 i x hx), ?_, ?_, hfa2⟩
  · simp only [JoinHandler.eval, hright, hhow, heq1, heq2]
  · intro i x hx
    rcases hback2 i x hx with hx1 | hx1
    · rcases hback1 i x hx1 with hx2 | hx2
      · exact Or.inl hx2
      · exact Or.inr hx2
    · exact Or.inr hx1
  · exact hfa1.imp (fun _ _ hx => hmono2 _ _ hx)

theorem suffixStep_ok {g2 : IR} {dfOp rightId suffixesId : Nat} {how : String}
    {jt : JoinType} {leftCols rightCols : List Nat} {scs : List Nat}
    {sns : List String}
    (hf : g2.find? suffixesId = some (.listNode scs) ∨
          g2.find? suffixesId = some (.tupleNode scs))
    (hsns : stringsOf? g2 scs = some sns)
    (h2 : sns.length = 2)
    (hjt : joinTypeFromString how = .ok jt)
    (hlen : leftCols.length = rightCols.length) :
    JoinHandler.suffixStep g2 dfOp rightId suffixesId how leftCols rightCols =
      ((g2.createNode (.opNode (.joinOp [dfOp, rightId] jt leftCols rightCols sns))).1,
       .ok g2.nextId) := by
  have hall := childrenAllString_of_stringsOf? hsns
  have hparse := parseStrings_of_stringsOf? hsns
  rcases hf with hf | hf <;>
    simp only [JoinHandler.suffixStep, matchCollectionWithChildrenString,
      collectionChildrenOf, hf, hall, if_true, hparse, h2, createJoinNode, hjt,
      hlen, IR.createNode]

/- ### Claim C1 -/

/-- C1: for every Join handler call with valid arguments whose left_on and
right_on label lists (or single strings) have equal length N, the handler
succeeds and the created Join node has exactly N equality conditions, every
column built from left_on references parent index 0, every column built from
right_on references parent index 1, and the Join node's parents are the
current Dataframe operator and the right operator, in that order. -/
theorem join_handler_eval_spec {g : IR}
    {dfOp rightId howId leftOnId rightOnId suffixesId : Nat}
    {od : OperatorData} {how : String} {jt : JoinType} {lns rns : List String}
    {scs : List Nat} {sns : List String}
    (hwf : g.WF)
    (hright : g.find? rightId = some (.opNode od))
    (hhow : g.find? howId = some (.strNode how))
    (hjt : joinTypeFromString how = .ok jt)
    (hleft : ColsArgNames g leftOnId lns)
    (hrightOn : ColsArgNames g rightOnId rns)
    (hlen : lns.length = rns.length)
    (hsfx : g.find? suffixesId = some (.listNode scs) ∨
            g.find? suffixesId = some (.tupleNode scs))
    (hsns : stringsOf? g scs = some sns)
    (hsfx2 : sns.length = 2) :
    ∃ g' jid leftCols rightCols,
      JoinHandler.eval g dfOp rightId howId leftOnId rightOnId suffixesId =
        (g', .ok jid) ∧
      g'.find? jid = some (.opNode (.joinOp [dfOp, rightId] jt leftCols rightCols sns)) ∧
      (OperatorData.joinOp [dfOp, rightId] jt leftCols
        rightCols sns).equalityConditions.length = lns.length ∧
      List.Forall₂ (fun nm cid => g'.find? cid = some (.columnNode nm 0)) lns leftCols ∧
      List.Forall₂ (fun nm cid => g'.find? cid = some (.columnNode nm 1)) rns rightCols := by
  obtain ⟨g2, leftCols, rightCols, heq, hwf2, hle, hmono, hback, hfal, hfar⟩ :=
    @join_eval_reduce g dfOp rightId howId leftOnId rightOnId suffixesId od how
      lns rns hwf hright hhow hleft hrightOn
  have hf2 : g2.find? suffixesId = some (.listNode scs) ∨
      g2.find? suffixesId = some (.tupleNode scs) := by
    rcases hsfx with hf | hf
    · exact Or.inl (hmono _ _ hf)
    · exact Or.inr (hmono _ _ hf)
  have hsns2 : stringsOf? g2 scs = some sns := stringsOf?_mono hmono hsns
  have hlenlr : leftCols.length = rightCols.length := by
    have h1 := hfal.length_eq
    have h2 := hfar.length_eq
    omega
  refine ⟨(g2.createNode (.opNode (.joinOp [dfOp, rightId] jt leftCols
      rightCols sns))).1, g2.nextId, leftCols, rightCols, ?_, ?_, ?_, ?_, ?_⟩
  · rw [heq]
    exact suffixStep_ok hf2 hsns2 hsfx2 hjt hlenlr
  · exact find?_createNode_self hwf2
  · simp only [OperatorData.equalityConditions, List.length_zip]
    have h1 := hfal.length_eq
    have h2 := hfar.length_eq
    omega
  · exact hfal.imp (fun _ _ hx => find?_createNode_preserved hx)
  · exact hfar.imp (fun _ _ hx => find?_createNode_preserved hx)

/-- Witness for C1 on a concrete graph: join on left_on containing one
label a and right_on containing one label b, with a 2-string suffix tuple. -/
theorem join_handler_eval_spec_witness :
    ∃ g' jid leftCols rightCols,
      JoinHandler.eval (IR.mk 10
        [(0, .opNode (.memSource "t0")), (1, .opNode (.memSource "t1")),
         (2, .strNode "inner"), (3, .strNode "a"), (4, .strNode "b"),
         (5, .listNode [3]), (6, .listNode [4]),
         (7, .strNode "sx"), (8, .strNode "sy"), (9, .tupleNode [7, 8])])
        0 1 2 5 6 9 = (g', .ok jid) ∧
      g'.find? jid = some (.opNode (.joinOp [0, 1] .inner leftCols rightCols
        ["sx", "sy"])) ∧
      (OperatorData.joinOp [0, 1] JoinType.inner leftCols rightCols
        ["sx", "sy"]).equalityConditions.length = (["a"] : List String).length ∧
      List.Forall₂ (fun nm cid => g'.find? cid = some (.columnNode nm 0))
        ["a"] leftCols ∧
      List.Forall₂ (fun nm cid => g'.find? cid = some (.columnNode nm 1))
        ["b"] rightCols :=
  @join_handler_eval_spec (IR.mk 10
      [(0, .opNode (.memSource "t0")), (1, .opNode (.memSource "t1")),
       (2, .strNode "inner"), (3, .strNode "a"), (4, .strNode "b"),
       (5, .listNode [3]), (6, .listNode [4]),
       (7, .strNode "sx"), (8, .strNode "sy"), (9, .tupleNode [7, 8])])
    0 1 2 5 6 9 (.memSource "t1") "inner" .inner ["a"] ["b"] [7, 8]
    ["sx", "sy"] (by decide) rfl rfl rfl
    (Or.inr ⟨[3], rfl, rfl⟩) (Or.inr ⟨[4], rfl, rfl⟩) rfl
    (Or.inr rfl) rfl rfl

/- ### Claim C4 -/

/-- C4: with the other merge arguments valid, the Join handler succeeds if
and only if the suffixes argument is a collection of exactly 2 string
elements; otherwise it produces a structured (recoverable) error. -/
theorem join_suffixes_arity {g : IR}
    {dfOp rightId howId leftOnId rightOnId suffixesId : Nat}
    {od : OperatorData} {how : String} {jt : JoinType} {lns rns : List String}
    (hwf : g.WF)
    (hright : g.find? rightId = some (.opNode od))
    (hhow : g.find? howId = some (.strNode how))
    (hjt : joinTypeFromString how = .ok jt)
    (hleft : ColsArgNames g leftOnId lns)
    (hrightOn : ColsArgNames g rightOnId rns)
    (hlen : lns.length = rns.length) :
    ((∃ g' jid, JoinHandler.eval g dfOp rightId howId leftOnId rightOnId
        suffixesId = (g', .ok jid)) ↔ SuffixOK g suffixesId) ∧
    (¬ SuffixOK g suffixesId →
      ∃ g'' msg, JoinHandler.eval g dfOp rightId howId leftOnId rightOnId
        suffixesId = (g'', .error (.structured msg))) := by
  obtain ⟨g2, leftCols, rightCols, heq, hwf2, hle, hmono, hback, hfal, hfar⟩ :=
    @join_eval_reduce g dfOp rightId howId leftOnId rightOnId suffixesId od how
      lns rns hwf hright hhow hleft hrightOn
  have hlenlr : leftCols.length = rightCols.length := by
    have h1 := hfal.length_eq
    have h2 := hfar.length_eq
    omega
  by_cases hok : SuffixOK g suffixesId
  · obtain ⟨scs, sns, hf, hsns, h2⟩ := hok
    have hf2 : g2.find? suffixesId = some (.listNode scs) ∨
        g2.find? suffixesId = some (.tupleNode scs) := by
      rcases hf with hf | hf
      · exact Or.inl (hmono _ _ hf)
      · exact Or.inr (hmono _ _ hf)
    have hsns2 : stringsOf? g2 scs = some sns := stringsOf?_mono hmono hsns
    refine ⟨⟨fun _ => ⟨scs, sns, hf, hsns, h2⟩, fun _ => ?_⟩,
      fun hn => absurd ⟨scs, sns, hf, hsns, h2⟩ hn⟩
    exact ⟨_, _, by rw [heq]; exact suffixStep_ok hf2 hsns2 h2 hjt hlenlr⟩
  · have herr : ∃ g'' msg,
        JoinHandler.suffixStep g2 dfOp rightId suffixesId how leftCols
          rightCols = (g'', .error (.structured msg)) := by
      cases hb : matchCollectionWithChildrenString g2 suffixesId with
      | false =>
        refine ⟨g2,
          "suffixes must be a tuple with 2 strings for the left and right suffixes", ?_⟩
        simp only [JoinHandler.suffixStep, hb, Bool.false_eq_true, if_false]
      | true =>
        rw [matchCollectionWithChildrenString] at hb
        cases hc : g2.find? suffixesId with
        | none => rw [hc] at hb; cases hb
        | some d =>
          rw [hc] at hb
          cases d with
          | listNode cs =>
            have hb' : childrenAllString g2 cs = true := hb
            obtain ⟨ns2, hns2⟩ := stringsOf?_of_childrenAllString hb'
            have hglist : g.find? suffixesId = some (.listNode cs) := by
              rcases hback _ _ hc with hx | ⟨nm, q, hx⟩
              · exact hx
              · cases hx
            have hgstr : stringsOf? g cs = some ns2 := stringsOf?_back hback hns2
            have hn2 : ¬ ns2.length = 2 := fun h2 =>
              hok ⟨cs, ns2, Or.inl hglist, hgstr, h2⟩
            refine ⟨g2, "suffixes must be a tuple with 2 elements. Received " ++
              toString ns2.length, ?_⟩
            simp only [JoinHandler.suffixStep, matchCollectionWithChildrenString,
              hc, hb', if_true, collectionChildrenOf,
              parseStrings_of_stringsOf? hns2, if_neg hn2]
          | tupleNode cs =>
            have hb' : childrenAllString g2 cs = true := hb
            obtain ⟨ns2, hns2⟩ := stringsOf?_of_childrenAllString hb'
            have hgtuple : g.find? suffixesId = some (.tupleNode cs) := by
              rcases hback _ _ hc with hx | ⟨nm, q, hx⟩
              · exact hx
              · cases hx
            have hgstr : stringsOf? g cs = some ns2 := stringsOf?_back hback hns2
            have hn2 : ¬ ns2.length = 2 := fun h2 =>
              hok ⟨cs, ns2, Or.inr hgtuple, hgstr, h2⟩
            refine ⟨g2, "suffixes must be a tuple with 2 elements. Received " ++
              toString ns2.length, ?_⟩
            simp only [JoinHandler.suffixStep, matchCollectionWithChildrenString,
              hc, hb', if_true, collectionChildrenOf,
              parseStrings_of_stringsOf? hns2, if_neg hn2]
          | strNode s => cases hb
          | intNode n => cases hb
          | floatNode v => cases hb
          | columnNode a b => cases hb
          | funcNode a b => cases hb
          | opNode a => cases hb
    obtain ⟨g'', msg, hstep⟩ := herr
    have herrEval : JoinHandler.eval g dfOp rightId howId leftOnId rightOnId
        suffixesId = (g'', .error (.structured msg)) := by rw [heq, hstep]
    refine ⟨⟨fun hex => ?_, fun hok2 => absurd hok2 hok⟩,
      fun _ => ⟨g'', msg, herrEval⟩⟩
    obtain ⟨g', jid, hevalok⟩ := hex
    rw [hevalok] at herrEval
    simp at herrEval

/-- Witness for C4 on a concrete graph: the success direction of the
equivalence applied to a 2-string suffix tuple. -/
theorem join_suffixes_arity_witness :
    ∃ g' jid, JoinHandler.eval (IR.mk 10
      [(0, .opNode (.memSource "t0")), (1, .opNode (.memSource "t1")),
       (2, .strNode "inner"), (3, .strNode "a"), (4, .strNode "b"),
       (5, .listNode [3]), (6, .listNode [4]),
       (7, .strNode "sx"), (8, .strNode "sy"), (9, .tupleNode [7, 8])])
      0 1 2 5 6 9 = (g', .ok jid) :=
  (@join_suffixes_arity (IR.mk 10
      [(0, .opNode (.memSource "t0")), (1, .opNode (.memSource "t1")),
       (2, .strNode "inner"), (3, .strNode "a"), (4, .strNode "b"),
       (5, .listNode [3]), (6, .listNode [4]),
       (7, .strNode "sx"), (8, .strNode "sy"), (9, .tupleNode [7, 8])])
    0 1 2 5 6 9 (.memSource "t1") "inner" .inner ["a"] ["b"]
    (by decide) rfl rfl rfl (Or.inr ⟨[3], rfl, rfl⟩) (Or.inr ⟨[4], rfl, rfl⟩)
    rfl).1.mpr ⟨[7, 8], ["sx", "sy"], Or.inr rfl, rfl, rfl⟩

/- ### AggHandler lemmas -/

theorem parseNameTuple_ok {g gm : IR} {tid fid : Nat} (hwf : g.WF)
    (h : AggHandler.parseNameTuple g tid = (gm, .ok fid)) :
    ∃ c1 cname fname,
      g.find? tid = some (.tupleNode [c1, fid]) ∧
      g.find? c1 = some (.strNode cname) ∧
      g.find? fid = some (.funcNode fname []) ∧
      gm.find? fid = some (.funcNode fname [g.nextId]) ∧
      gm.find? g.nextId = some (.columnNode cname 0) ∧
      gm.find? tid = none ∧
      gm.WF ∧ gm.nextId = g.nextId + 1 ∧
      (∀ i x, i ≠ tid → i ≠ fid → g.find? i = some x → gm.find? i = some x) ∧
      (∀ i, i < g.nextId → g.find? i = none → gm.find? i = none) ∧
      (∀ i x, gm.find? i = some x →
        g.find? i = some x ∨ i = g.nextId ∨ i = fid) := by
  rw [AggHandler.parseNameTuple] at h
  split at h <;> try simp at h
  rename_i cs ht
  split at h <;> try simp at h
  rename_i c1 c2
  split at h <;> try simp at h
  rename_i cname hc1
  split at h <;> try simp at h
  rename_i fname fargs hc2
  split at h <;> try simp at h
  rename_i hlen0
  split at h <;> try simp at h
  rename_i g3 hd
  subst hlen0
  obtain ⟨hgm, hfid⟩ := h
  subst hgm
  subst hfid
  rw [IR.deleteNode] at hd
  by_cases href : ((g.createNode (.columnNode cname 0)).1.updateNode c2
      (.funcNode fname ([] ++ [(g.createNode (.columnNode cname 0)).2]))).referenced tid = true
  · rw [if_pos href] at hd; cases hd
  · rw [if_neg href] at hd
    injection hd with hd
    subst hd
    have htid_lt : tid < g.nextId := find?_lt_nextId hwf ht
    have hc1_lt : c1 < g.nextId := find?_lt_nextId hwf hc1
    have hfid_lt : c2 < g.nextId := find?_lt_nextId hwf hc2
    have htid_ne_fid : tid ≠ c2 := by
      intro e
      rw [e, hc2] at ht
      simp at ht
    have hg1wf : (g.createNode (.columnNode cname 0)).1.WF :=
      WF_createNode hwf
    have hg1fid : (g.createNode (.columnNode cname 0)).1.find? c2 =
        some (.funcNode fname []) := find?_createNode_preserved hc2
    refine ⟨c1, cname, fname, ht, hc1, hc2, ?_, ?_, ?_, ?_, ?_, ?_, ?_, ?_⟩
    · rw [find?_removeId, if_neg htid_ne_fid.symm, find?_updateNode,
        if_pos rfl, hg1fid]
      rfl
    · have hne : (g.nextId : Nat) ≠ c2 := by omega
      have hne2 : (g.nextId : Nat) ≠ tid := by omega
      rw [find?_removeId, if_neg hne2, find?_updateNode, if_neg hne]
      exact find?_createNode_self hwf
    · rw [find?_removeId, if_pos rfl]
    · exact WF_removeId (WF_updateNode hg1wf)
    · rfl
    · intro i x hitid hifid hx
      rw [find?_removeId, if_neg hitid, find?_updateNode, if_neg hifid]
      exact find?_createNode_preserved hx
    · intro i hilt hnone
      have hifid : i ≠ c2 := by
        intro e
        rw [e, hc2] at hnone
        cases hnone
      by_cases hitid : i = tid
      · rw [find?_removeId, if_pos hitid]
      · rw [find?_removeId, if_neg hitid, find?_updateNode, if_neg hifid,
          find?_createNode_none (by omega) hnone]
    · intro i x hx
      by_cases hitid : i = tid
      · rw [find?_removeId, if_pos hitid] at hx
        cases hx
      · rw [find?_removeId, if_neg hitid] at hx
        by_cases hifid : i = c2
        · exact Or.inr (Or.inr hifid)
        · rw [find?_updateNode, if_neg hifid] at hx
          rcases find?_createNode_cases hx with hx1 | ⟨_, hx1, _⟩
          · exact Or.inl hx1
          · exact Or.inr (Or.inl hx1)

theorem evalKwargs_ok {kwargs : List (String × Nat)} {g g' : IR}
    {aggExprs : List (String × Nat)} (hwf : g.WF)
    (h : AggHandler.evalKwargs g kwargs = (g', .ok aggExprs)) :
    g'.WF ∧ g.nextId ≤ g'.nextId ∧
    (∀ i s, g.find? i = some (.strNode s) → g'.find? i = some (.strNode s)) ∧
    (∀ i nm p, g.find? i = some (.columnNode nm p) →
      g'.find? i = some (.columnNode nm p)) ∧
    (∀ i fn args, args ≠ [] → g.find? i = some (.funcNode fn args) →
      g'.find? i = some (.funcNode fn args)) ∧
    (∀ i, i < g.nextId → g.find? i = none → g'.find? i = none) ∧
    List.Forall₂ (fun kw ae => kw.1 = ae.1 ∧
      ∃ c1 cname colId fname,
        g.find? kw.2 = some (.tupleNode [c1, ae.2]) ∧
        g.find? c1 = some (.strNode cname) ∧
        g'.find? ae.2 = some (.funcNode fname [colId]) ∧
        g'.find? colId = some (.columnNode cname 0) ∧
        g'.find? kw.2 = none) kwargs aggExprs := by
  induction kwargs generalizing g aggExprs with
  | nil =>
    rw [AggHandler.evalKwargs] at h
    simp only [Prod.mk.injEq, Except.ok.injEq] at h
    obtain ⟨hg, ha⟩ := h
    subst hg
    subst ha
    exact ⟨hwf, Nat.le_refl _, fun _ _ hx => hx, fun _ _ _ hx => hx,
      fun _ _ _ _ hx => hx, fun _ _ hx => hx, List.Forall₂.nil⟩
  | cons kw rest ih =>
    obtain ⟨name, eid⟩ := kw
    rw [AggHandler.evalKwargs] at h
    split at h <;> try simp at h
    split at h <;> try simp at h
    rename_i g1 fid hp
    split at h <;> try simp at h
    rename_i g2 restExprs hr
    obtain ⟨hg, ha⟩ := h
    subst hg
    subst ha
    obtain ⟨c1, cname, fname, ht, hc1, hfe, hm_f, hm_col, hm_tid, hwf1, hnext1,
      hfwd, hnone, hbackk⟩ := parseNameTuple_ok hwf hp
    obtain ⟨hwf', hle', hstr', hcol', hfun', hnone', hfa'⟩ := ih hwf1 hr
    have heid_lt : eid < g.nextId := find?_lt_nextId hwf ht
    have hne_tid : ∀ i x, g.find? i = some x → x ≠ .tupleNode [c1, fid] → i ≠ eid := by
      intro i x hx hxne he
      rw [he, ht] at hx
      cases hx
      exact hxne rfl
    refine ⟨hwf', by omega, ?_, ?_, ?_, ?_, ?_⟩
    · intro i s hx
      have hit : i ≠ eid := by
        intro he
        rw [he, ht] at hx
        cases hx
      have hif : i ≠ fid := by
        intro he
        rw [he, hfe] at hx
        cases hx
      exact hstr' i s (hfwd i _ hit hif hx)
    · intro i nm p hx
      have hit : i ≠ eid := by
        intro he
        rw [he, ht] at hx
        cases hx
      have hif : i ≠ fid := by
        intro he
        rw [he, hfe] at hx
        cases hx
      exact hcol' i nm p (hfwd i _ hit hif hx)
    · intro i fn args hargs hx
      have hit : i ≠ eid := by
        intro he
        rw [he, ht] at hx
        cases hx
      have hif : i ≠ fid := by
        intro he
        rw [he, hfe] at hx
        injection hx with hx1
        injection hx1 with hx1 hx2
        exact hargs hx2.symm
      exact hfun' i fn args hargs (hfwd i _ hit hif hx)
    · intro i hlt hx
      exact hnone' i (by omega) (hnone i hlt hx)
    · refine List.Forall₂.cons ⟨rfl, c1, cname, g.nextId, fname, ht, hc1,
        hfun' fid fname [g.nextId] (by simp) hm_f,
        hcol' g.nextId cname 0 hm_col,
        hnone' eid (by omega) hm_tid⟩ (hfa'.imp ?_)
      intro kw' ae' hcond
      obtain ⟨hname, c1', cname', colId', fname', ht', hc1', hf', hcol2', hnone2'⟩ := hcond
      refine ⟨hname, c1', cname', colId', fname', ?_, ?_, hf', hcol2', hnone2'⟩
      · rcases hbackk _ _ ht' with hx | hx | hx
        · exact hx
        · rw [hx, hm_col] at ht'
          cases ht'
        · rw [hx, hm_f] at ht'
          cases ht'
      · rcases hbackk _ _ hc1' with hx | hx | hx
        · exact hx
        · rw [hx, hm_col] at hc1'
          cases hc1'
        · rw [hx, hm_f] at hc1'
          cases hc1'

/- ### Claim C2 -/

/-- C2: every successful Aggregate handler call produces one aggregate
expression per keyword argument (whose value was a 2-element tuple of a
string and a function); each function's argument list is extended by exactly
one Column node named by the tuple's string at parent index 0; the consumed
tuple node is deleted from the graph; and the BlockingAgg node is created
with an empty group-column list. -/
theorem agg_handler_eval_spec {g : IR} {dfOp : Nat} {kwargs : List (String × Nat)}
    {g' : IR} {aggId : Nat} (hwf : g.WF)
    (h : AggHandler.eval g dfOp kwargs = (g', .ok aggId)) :
    ∃ aggExprs,
      g'.find? aggId = some (.opNode (.blockingAgg dfOp [] aggExprs)) ∧
      List.Forall₂ (fun kw ae => kw.1 = ae.1 ∧
        ∃ c1 cname colId fname,
          g.find? kw.2 = some (.tupleNode [c1, ae.2]) ∧
          g.find? c1 = some (.strNode cname) ∧
          g'.find? ae.2 = some (.funcNode fname [colId]) ∧
          g'.find? colId = some (.columnNode cname 0) ∧
          g'.find? kw.2 = none) kwargs aggExprs := by
  rw [AggHandler.eval] at h
  split at h <;> try simp at h
  rename_i g1 aggExprs hkw
  obtain ⟨hg, hid⟩ := h
  subst hg
  subst hid
  obtain ⟨hwf1, hle1, hstr1, hcol1, hfun1, hnone1, hfa1⟩ := evalKwargs_ok hwf hkw
  refine ⟨aggExprs, find?_createNode_self hwf1, hfa1.imp ?_⟩
  intro kw ae hcond
  obtain ⟨hname, c1, cname, colId, fname, ht, hc1, hf, hcol, hnone⟩ := hcond
  have hlt : kw.2 < g.nextId := find?_lt_nextId hwf ht
  exact ⟨hname, c1, cname, colId, fname, ht, hc1,
    find?_createNode_preserved hf, find?_createNode_preserved hcol,
    find?_createNode_none (by omega) hnone⟩

/-- Witness for C2 on a concrete graph: agg with one keyword out whose value
is the tuple of column name c and the zero-argument function mean. -/
theorem agg_handler_eval_spec_witness :
    ∃ aggExprs,
      (IR.mk 12 [(0, .opNode (.memSource "t0")), (1, .strNode "c"),
        (2, .funcNode "mean" [10]), (10, .columnNode "c" 0),
        (11, .opNode (.blockingAgg 0 [] [("out", 2)]))]).find? 11 =
        some (.opNode (.blockingAgg 0 [] aggExprs)) ∧
      List.Forall₂ (fun kw ae => kw.1 = ae.1 ∧
        ∃ c1 cname colId fname,
          (IR.mk 10 [(0, .opNode (.memSource "t0")), (1, .strNode "c"),
            (2, .funcNode "mean" []), (3, .tupleNode [1, 2])]).find? kw.2 =
            some (.tupleNode [c1, ae.2]) ∧
          (IR.mk 10 [(0, .opNode (.memSource "t0")), (1, .strNode "c"),
            (2, .funcNode "mean" []), (3, .tupleNode [1, 2])]).find? c1 =
            some (.strNode cname) ∧
          (IR.mk 12 [(0, .opNode (.memSource "t0")), (1, .strNode "c"),
            (2, .funcNode "mean" [10]), (10, .columnNode "c" 0),
            (11, .opNode (.blockingAgg 0 [] [("out", 2)]))]).find? ae.2 =
            some (.funcNode fname [colId]) ∧
          (IR.mk 12 [(0, .opNode (.memSource "t0")), (1, .strNode "c"),
            (2, .funcNode "mean" [10]), (10, .columnNode "c" 0),
            (11, .opNode (.blockingAgg 0 [] [("out", 2)]))]).find? colId =
            some (.columnNode cname 0) ∧
          (IR.mk 12 [(0, .opNode (.memSource "t0")), (1, .strNode "c"),
            (2, .funcNode "mean" [10]), (10, .columnNode "c" 0),
            (11, .opNode (.blockingAgg 0 [] [("out", 2)]))]).find? kw.2 =
            none) [("out", 3)] aggExprs :=
  @agg_handler_eval_spec
    (IR.mk 10 [(0, .opNode (.memSource "t0")), (1, .strNode "c"),
      (2, .funcNode "mean" []), (3, .tupleNode [1, 2])]) 0 [("out", 3)]
    (IR.mk 12 [(0, .opNode (.memSource "t0")), (1, .strNode "c"),
      (2, .funcNode "mean" [10]), (10, .columnNode "c" 0),
      (11, .opNode (.blockingAgg 0 [] [("out", 2)]))]) 11
    (by decide) rfl

/- ### Claim C10 -/

/-- C10: in the Aggregate handler, the function in the second tuple position
must have an empty evaluation-argument list: when it already has one or more
arguments, the handler returns the structured error Unexpected aggregate
function, the graph is untouched and no BlockingAgg node is produced. -/
theorem agg_nonempty_func_error {g : IR} {dfOp : Nat} {name : String}
    {eid : Nat} {rest : List (String × Nat)} {c1 c2 : Nat} {s fname : String}
    {fargs : List Nat}
    (ht : g.find? eid = some (.tupleNode [c1, c2]))
    (hc1 : g.find? c1 = some (.strNode s))
    (hc2 : g.find? c2 = some (.funcNode fname fargs))
    (hne : fargs ≠ []) :
    AggHandler.eval g dfOp ((name, eid) :: rest) =
      (g, .error (.structured "Unexpected aggregate function")) := by
  have hlen : ¬ fargs.length = 0 := fun h0 => hne (List.length_eq_zero.mp h0)
  simp only [AggHandler.eval, AggHandler.evalKwargs, AggHandler.parseNameTuple,
    ht, hc1, hc2, if_neg hlen]

/-- Witness for C10: the tuple value holds the function mean that already
has one argument, so agg fails with Unexpected aggregate function. -/
theorem agg_nonempty_func_error_witness :
    AggHandler.eval (IR.mk 10 [(0, .opNode (.memSource "t0")),
      (1, .strNode "c"), (2, .funcNode "mean" [1]), (3, .tupleNode [1, 2])])
      0 [("out", 3)] =
      (IR.mk 10 [(0, .opNode (.memSource "t0")), (1, .strNode "c"),
        (2, .funcNode "mean" [1]), (3, .tupleNode [1, 2])],
       .error (.structured "Unexpected aggregate function")) :=
  agg_nonempty_func_error rfl rfl rfl (by simp)

/- ### Claim C5 -/

/-- C5: after a successful Limit handler call whose integer argument node
holds 5, the literal integer node no longer exists in the graph and the
created Limit node stores the row count 5. -/
theorem limit_consumes_literal {g : IR} {dfOp rowsId : Nat} {g' : IR}
    {limitId : Nat} (hwf : g.WF)
    (hn : g.find? rowsId = some (.intNode 5))
    (h : LimitHandler.eval g dfOp rowsId = (g', .ok limitId)) :
    g'.find? rowsId = none ∧
    g'.find? limitId = some (.opNode (.limitOp dfOp 5)) := by
  simp only [LimitHandler.eval, hn] at h
  split at h <;> try simp at h
  rename_i g2 hd
  obtain ⟨hg, hid⟩ := h
  subst hg
  subst hid
  rw [IR.deleteNode] at hd
  by_cases href :
      (g.createNode (.opNode (.limitOp dfOp 5))).1.referenced rowsId = true
  · rw [if_pos href] at hd; cases hd
  · rw [if_neg href] at hd
    injection hd with hd
    subst hd
    have hlt : rowsId < g.nextId := find?_lt_nextId hwf hn
    constructor
    · rw [find?_removeId, if_pos rfl]
    · have hne : (g.createNode (.opNode (.limitOp dfOp 5))).2 ≠ rowsId := by
        intro he
        have he' : g.nextId = rowsId := he
        omega
      rw [find?_removeId, if_neg hne]
      exact find?_createNode_self hwf

/-- Witness for C5: head with n = 5 on a concrete graph deletes the integer
node 7 and stores 5 on the Limit node 9. -/
theorem limit_consumes_literal_witness :
    (IR.mk 10 [(0, .opNode (.memSource "t0")),
      (9, .opNode (.limitOp 0 5))]).find? 7 = none ∧
    (IR.mk 10 [(0, .opNode (.memSource "t0")),
      (9, .opNode (.limitOp 0 5))]).find? 9 =
      some (.opNode (.limitOp 0 5)) :=
  @limit_consumes_literal
    (IR.mk 9 [(0, .opNode (.memSource "t0")), (7, .intNode 5)]) 0 7
    (IR.mk 10 [(0, .opNode (.memSource "t0")), (9, .opNode (.limitOp 0 5))]) 9
    (by decide) rfl rfl

/- ### Claim C6 -/

theorem deleteSubtree_leaf (fuel : Nat) (h : IR) (c : Nat)
    (hleaf : ∀ x, h.find? c = some x → x.childRefs = []) :
    IR.deleteSubtree fuel h c = h.removeId c := by
  cases fuel with
  | zero => rfl
  | succ f =>
    cases hc : h.find? c with
    | none => simp [IR.deleteSubtree, hc]
    | some d => simp [IR.deleteSubtree, hc, hleaf d hc]

theorem foldl_deleteSubtree_leaves (cs : List Nat) (fuel : Nat) (h : IR)
    (hleaf : ∀ c ∈ cs, ∀ x, h.find? c = some x → x.childRefs = []) :
    ∀ i, (cs.foldl (fun h' c => IR.deleteSubtree fuel h' c) h).find? i =
      if i ∈ cs then none else h.find? i := by
  induction cs generalizing h with
  | nil => intro i; simp
  | cons c cs' ih =>
    intro i
    rw [List.foldl_cons, deleteSubtree_leaf fuel h c (hleaf c (by simp))]
    have hleaf' : ∀ c' ∈ cs', ∀ x, (h.removeId c).find? c' = some x →
        x.childRefs = [] := by
      intro c' hc' x hx
      rw [find?_removeId] at hx
      split at hx
      · cases hx
      · exact hleaf c' (by simp [hc']) x hx
    rw [ih (h.removeId c) hleaf' i, find?_removeId]
    by_cases hics' : i ∈ cs'
    · simp [hics']
    · by_cases hic : i = c
      · simp [List.mem_cons, hic, hics']
      · simp [List.mem_cons, hic, hics']

/-- C6: when the columns argument is a list of strings, the Drop handler
produces a Drop node holding exactly those names in order and deletes the
consumed list node together with its children; when it is not a list, the
handler returns a structured error and leaves the graph untouched. -/
theorem drop_handler_spec {g : IR} {dfOp columnsId : Nat} (hwf : g.WF) :
    (∀ cs ns, g.find? columnsId = some (.listNode cs) →
      stringsOf? g cs = some ns →
      ∃ g' dropId, DropHandler.eval g dfOp columnsId = (g', .ok dropId) ∧
        g'.find? dropId = some (.opNode (.dropOp dfOp ns)) ∧
        g'.find? columnsId = none ∧ (∀ c ∈ cs, g'.find? c = none)) ∧
    (∀ d, g.find? columnsId = some d → (∀ cs, d ≠ .listNode cs) →
      DropHandler.eval g dfOp columnsId =
        (g, .error (.structured "Expected columns to be a list"))) := by
  constructor
  · intro cs ns hf hstr
    have hparse := parseStrings_of_stringsOf? hstr
    have hwf1 : (g.createNode (.opNode (.dropOp dfOp ns))).1.WF := WF_createNode hwf
    have hf1 : (g.createNode (.opNode (.dropOp dfOp ns))).1.find? columnsId =
        some (.listNode cs) := find?_createNode_preserved hf
    have hlen1 : (g.createNode (.opNode (.dropOp dfOp ns))).1.nodes.length =
        g.nodes.length + 1 := by
      simp [IR.createNode]
    have hcalc : (g.createNode (.opNode (.dropOp dfOp ns))).1.deleteNodeAndChildren
        columnsId =
        cs.foldl (fun h' c => IR.deleteSubtree g.nodes.length h' c)
          ((g.createNode (.opNode (.dropOp dfOp ns))).1.removeId columnsId) := by
      rw [IR.deleteNodeAndChildren, hlen1]
      simp only [IR.deleteSubtree, hf1, IRNodeData.childRefs]
    have hleaf : ∀ c ∈ cs, ∀ x,
        ((g.createNode (.opNode (.dropOp dfOp ns))).1.removeId columnsId).find? c =
          some x → x.childRefs = [] := by
      intro c hc x hx
      rw [find?_removeId] at hx
      split at hx
      · cases hx
      · obtain ⟨s, hs⟩ := stringsOf?_mem hstr c hc
        rw [find?_createNode_preserved hs] at hx
        cases hx
        rfl
    have hcs_lt : ∀ c ∈ cs, c < g.nextId := by
      intro c hc
      obtain ⟨s, hs⟩ := stringsOf?_mem hstr c hc
      exact find?_lt_nextId hwf hs
    have hcol_lt : columnsId < g.nextId := find?_lt_nextId hwf hf
    refine ⟨(g.createNode (.opNode (.dropOp dfOp ns))).1.deleteNodeAndChildren
      columnsId, g.nextId, ?_, ?_, ?_, ?_⟩
    · simp only [DropHandler.eval, hf, hparse]
      rfl
    · rw [hcalc, foldl_deleteSubtree_leaves cs g.nodes.length _ hleaf]
      have hnm : ¬ (g.nextId ∈ cs) := fun hmem => by
        have := hcs_lt _ hmem
        omega
      rw [if_neg hnm, find?_removeId, if_neg (by omega)]
      exact find?_createNode_self hwf
    · rw [hcalc, foldl_deleteSubtree_leaves cs g.nodes.length _ hleaf]
      by_cases hmem : columnsId ∈ cs
      · rw [if_pos hmem]
      · rw [if_neg hmem, find?_removeId, if_pos rfl]
    · intro c hc
      rw [hcalc, foldl_deleteSubtree_leaves cs g.nodes.length _ hleaf, if_pos hc]
  · intro d hf hne
    cases d with
    | listNode cs => exact absurd rfl (hne cs)
    | strNode s => simp only [DropHandler.eval, hf]
    | intNode n => simp only [DropHandler.eval, hf]
    | floatNode v => simp only [DropHandler.eval, hf]
    | columnNode a b => simp only [DropHandler.eval, hf]
    | funcNode a b => simp only [DropHandler.eval, hf]
    | tupleNode a => simp only [DropHandler.eval, hf]
    | opNode a => simp only [DropHandler.eval, hf]

/-- Witness for C6: drop of the string list [a, b] on a concrete graph. -/
theorem drop_handler_spec_witness :
    ∃ g' dropId, DropHandler.eval (IR.mk 9 [(0, .opNode (.memSource "t0")),
      (3, .strNode "a"), (4, .strNode "b"), (5, .listNode [3, 4])]) 0 5 =
      (g', .ok dropId) ∧
      g'.find? dropId = some (.opNode (.dropOp 0 ["a", "b"])) ∧
      g'.find? 5 = none ∧ (∀ c ∈ [3, 4], g'.find? c = none) :=
  (@drop_handler_spec (IR.mk 9 [(0, .opNode (.memSource "t0")),
    (3, .strNode "a"), (4, .strNode "b"), (5, .listNode [3, 4])]) 0 5
    (by decide)).1 [3, 4] ["a", "b"] rfl rfl

/- ### Claims C3 and C9 (Subscript) -/

theorem createKeepCols_ok {ns : List String} {g : IR} (hwf : g.WF) :
    ∃ g2 ces, createKeepCols g ns = (g2, ces) ∧ g2.WF ∧ g.nextId ≤ g2.nextId ∧
      (∀ i x, g.find? i = some x → g2.find? i = some x) ∧
      List.Forall₂ (fun nm ce => ce.1 = nm ∧
        g2.find? ce.2 = some (.columnNode nm 0) ∧ g.nextId ≤ ce.2) ns ces := by
  induction ns generalizing g with
  | nil =>
    exact ⟨g, [], rfl, hwf, Nat.le_refl _, fun _ _ hx => hx, List.Forall₂.nil⟩
  | cons n rest ih =>
    obtain ⟨g2, ces, heq, hwf2, hle2, hmono2, hfa⟩ :=
      ih (WF_createNode (d := .columnNode n 0) hwf)
    have hle2' : g.nextId + 1 ≤ g2.nextId := hle2
    refine ⟨g2, (n, (g.createNode (.columnNode n 0)).2) :: ces, ?_, hwf2,
      by omega, ?_, ?_⟩
    · simp only [createKeepCols, heq]
    · exact fun i x hx => hmono2 i x (find?_createNode_preserved hx)
    · refine List.Forall₂.cons
        ⟨rfl, hmono2 _ _ (find?_createNode_self hwf), Nat.le_refl _⟩ (hfa.imp ?_)
      intro nm ce hc
      obtain ⟨h1, h2, h3⟩ := hc
      have h3' : g.nextId + 1 ≤ ce.2 := h3
      exact ⟨h1, h2, by omega⟩

/-- C3: a subscript whose key is a list of strings yields a Map node whose
output expressions are exactly one newly created Column (parent index 0) per
listed name, in order, with keep_input_columns false; a subscript whose key
is any other expression yields a Filter node adopting that expression, with
no node deleted and no node created beyond the Filter operator itself. -/
theorem subscript_dispatch_law {g : IR} {dfOp keyId : Nat} (hwf : g.WF) :
    (∀ cs ns, g.find? keyId = some (.listNode cs) → stringsOf? g cs = some ns →
      ∃ g' mapId ces,
        SubscriptHandler.eval g dfOp keyId = (g', .ok mapId) ∧
        g'.find? mapId = some (.opNode (.mapOp dfOp ces false)) ∧
        List.Forall₂ (fun nm ce => ce.1 = nm ∧
          g'.find? ce.2 = some (.columnNode nm 0) ∧ g.nextId ≤ ce.2) ns ces) ∧
    (∀ d, g.find? keyId = some d → d.isExpression = true →
      (∀ cs, d ≠ .listNode cs) →
      SubscriptHandler.eval g dfOp keyId =
        (IR.mk (g.nextId + 1)
          (g.nodes ++ [(g.nextId, .opNode (.filterOp dfOp keyId))]),
         .ok g.nextId)) := by
  constructor
  · intro cs ns hf hstr
    obtain ⟨g2, ces, heq, hwf2, hle2, hmono2, hfa⟩ :=
      @createKeepCols_ok ns g hwf
    refine ⟨(g2.createNode (.opNode (.mapOp dfOp ces false))).1,
      (g2.createNode (.opNode (.mapOp dfOp ces false))).2, ces, ?_, ?_, ?_⟩
    · simp only [SubscriptHandler.eval, hf, IRNodeData.isExpression,
        SubscriptHandler.evalKeep, parseStrings_of_stringsOf? hstr, heq, if_true]
    · exact find?_createNode_self hwf2
    · refine hfa.imp ?_
      intro nm ce hc
      obtain ⟨h1, h2, h3⟩ := hc
      exact ⟨h1, find?_createNode_preserved h2, h3⟩
  · intro d hf hexpr hne
    cases d with
    | listNode cs => exact absurd rfl (hne cs)
    | opNode a => cases hexpr
    | strNode s =>
      simp only [SubscriptHandler.eval, hf, IRNodeData.isExpression, if_true,
        SubscriptHandler.evalFilter, IR.createNode]
    | intNode n =>
      simp only [SubscriptHandler.eval, hf, IRNodeData.isExpression, if_true,
        SubscriptHandler.evalFilter, IR.createNode]
    | floatNode v =>
      simp only [SubscriptHandler.eval, hf, IRNodeData.isExpression, if_true,
        SubscriptHandler.evalFilter, IR.createNode]
    | columnNode a b =>
      simp only [SubscriptHandler.eval, hf, IRNodeData.isExpression, if_true,
        SubscriptHandler.evalFilter, IR.createNode]
    | funcNode a b =>
      simp only [SubscriptHandler.eval, hf, IRNodeData.isExpression, if_true,
        SubscriptHandler.evalFilter, IR.createNode]
    | tupleNode a =>
      simp only [SubscriptHandler.eval, hf, IRNodeData.isExpression, if_true,
        SubscriptHandler.evalFilter, IR.createNode]

/-- Witness for C3: subscripting with the string list [a, b] yields the Map
node over two fresh columns. -/
theorem subscript_dispatch_law_witness :
    ∃ g' mapId ces,
      SubscriptHandler.eval (IR.mk 9 [(0, .opNode (.memSource "t0")),
        (3, .strNode "a"), (4, .strNode "b"), (5, .listNode [3, 4])]) 0 5 =
        (g', .ok mapId) ∧
      g'.find? mapId = some (.opNode (.mapOp 0 ces false)) ∧
      List.Forall₂ (fun nm ce => ce.1 = nm ∧
        g'.find? ce.2 = some (.columnNode nm 0) ∧ 9 ≤ ce.2) ["a", "b"] ces :=
  (@subscript_dispatch_law (IR.mk 9 [(0, .opNode (.memSource "t0")),
    (3, .strNode "a"), (4, .strNode "b"), (5, .listNode [3, 4])]) 0 5
    (by decide)).1 [3, 4] ["a", "b"] rfl rfl

/- ### Claim C9 -/

/-- C9: when the subscript key is not an expression node, the handler
returns the structured error that the subscript argument must be an
expression, before either branch runs, and the graph is left unchanged (no
node is created). -/
theorem subscript_non_expression_error {g : IR} {dfOp keyId : Nat}
    {d : IRNodeData} (hf : g.find? keyId = some d)
    (hne : d.isExpression = false) :
    SubscriptHandler.eval g dfOp keyId =
      (g, .error (.structured "subscript argument must have an expression")) := by
  simp only [SubscriptHandler.eval, hf, hne, Bool.false_eq_true, if_false]

/-- Witness for C9: subscripting with an operator node as the key errors and
leaves the graph unchanged. -/
theorem subscript_non_expression_error_witness :
    SubscriptHandler.eval (IR.mk 2 [(0, .opNode (.memSource "t0")),
      (1, .opNode (.memSource "t1"))]) 0 1 =
      (IR.mk 2 [(0, .opNode (.memSource "t0")), (1, .opNode (.memSource "t1"))],
       .error (.structured "subscript argument must have an expression")) :=
  subscript_non_expression_error rfl rfl

/- ### OTel lemmas (C7 and C8) -/

theorem noAssert_ok {α : Type} (a : α) : NoAssertionResult (Except.ok (ε := Failure) a) := by
  intro m hc
  cases hc

theorem noAssert_structured {α : Type} (s : String) :
    NoAssertionResult (Except.error (α := α) (Failure.structured s)) := by
  intro m hc
  simp at hc

theorem noAssert_bind {α β : Type} {x : Except Failure α}
    {f : α → Except Failure β} (hx : NoAssertionResult x)
    (hf : ∀ a, NoAssertionResult (f a)) :
    NoAssertionResult (Except.bind x f) := by
  cases x with
  | ok a => exact hf a
  | error e =>
    intro m hc
    simp only [Except.bind] at hc
    injection hc with he
    exact hx m (by rw [he])

theorem getArgAsStringIR_noAssert (a : String) (v : QLVal) :
    NoAssertionResult (getArgAsStringIR a v) := by
  cases v <;> intro m hc <;> simp [getArgAsStringIR] at hc

theorem getArgAsIntIR_noAssert (a : String) (v : QLVal) :
    NoAssertionResult (getArgAsIntIR a v) := by
  cases v <;> intro m hc <;> simp [getArgAsIntIR] at hc

theorem getArgAsFloatIR_noAssert (a : String) (v : QLVal) :
    NoAssertionResult (getArgAsFloatIR a v) := by
  cases v <;> intro m hc <;> simp [getArgAsFloatIR] at hc

theorem parseEndpointConfig_noAssert (v : QLVal) :
    NoAssertionResult (parseEndpointConfig v) := by
  cases v <;> intro m hc <;> simp [parseEndpointConfig] at hc

theorem processOTelAttributePairs_noAssert (ps : List (QLVal × QLVal)) :
    NoAssertionResult (processOTelAttributePairs ps) := by
  induction ps with
  | nil => exact noAssert_ok _
  | cons p rest ih =>
    obtain ⟨k, v⟩ := p
    rw [processOTelAttributePairs]
    exact noAssert_bind (getArgAsStringIR_noAssert _ _) fun key =>
      noAssert_bind (getArgAsStringIR_noAssert _ _) fun val =>
      noAssert_bind ih fun r => noAssert_ok _

theorem processQuantilePairs_noAssert (ps : List (QLVal × QLVal)) :
    NoAssertionResult (processQuantilePairs ps) := by
  induction ps with
  | nil => exact noAssert_ok _
  | cons p rest ih =>
    obtain ⟨k, v⟩ := p
    rw [processQuantilePairs]
    exact noAssert_bind (getArgAsFloatIR_noAssert _ _) fun q =>
      noAssert_bind (getArgAsStringIR_noAssert _ _) fun val =>
      noAssert_bind ih fun r => noAssert_ok _

/-- C7: in the OTel span, metric and summary builders (the builders that
consume an attribute or quantile dictionary), a length mismatch between the
dictionary's key and value lists is a CHECK_EQ assertion failure (a panic),
not a recoverable structured error; and under the invariant that the two
lists have equal length, the assertion branch is unreachable. -/
theorem otel_dict_length_assertion :
    (∀ (epb : OTelEndpointConfigPB) (n sid psid tidc stc stt ett : String)
       (kv : Int) (keys vals : List QLVal),
      OTelSpanKind_IsValid kv = true → vals.length ≠ keys.length →
      OTelSpanDefinition
        { name := .strV n, start_time_unix_nano := .strV stt,
          end_time_unix_nano := .strV ett, span_id := .strV sid,
          parent_span_id := .strV psid, trace_id := .strV tidc,
          status := .strV stc, kind := .intV kv,
          attributes := .dictV keys vals, endpoint := .endpointV epb } =
        .error (.assertionFailure
          "CHECK_EQ: attribute values and keys sizes differ")) ∧
    (∀ args : SpanArgs, DictLenOK args.attributes →
      NoAssertionResult (OTelSpanDefinition args)) ∧
    (∀ (mpb : OTelMetricPB) (mcols : List ExpectedColumn)
       (epb : OTelEndpointConfigPB) (n dsc : String) (keys vals : List QLVal),
      vals.length ≠ keys.length →
      OTelMetricDefinition
        { name := .strV n, description := .strV dsc,
          data := .metricDataV mpb mcols, attributes := .dictV keys vals,
          endpoint := .endpointV epb } =
        .error (.assertionFailure
          "CHECK_EQ: attribute values and keys sizes differ")) ∧
    (∀ args : MetricArgs, DictLenOK args.attributes →
      NoAssertionResult (OTelMetricDefinition args)) ∧
    (∀ (cn sn : String) (stv tv : QLVal) (keys vals : List QLVal),
      vals.length ≠ keys.length →
      OTelSummaryDefinition
        { start_time_unix_nano := stv,
          time_unix_nano := tv, count := .strV cn, sum := .strV sn,
          quantile_values := .dictV keys vals } =
        .error (.assertionFailure
          "CHECK_EQ: quantile values and keys sizes differ")) ∧
    (∀ args : SummaryArgs, DictLenOK args.quantile_values →
      NoAssertionResult (OTelSummaryDefinition args)) := by
  refine ⟨?_, ?_, ?_, ?_, ?_, ?_⟩
  · intro epb n sid psid tidc stc stt ett kv keys vals hk hne
    simp only [OTelSpanDefinition, parseEndpointConfig, getArgAsStringIR,
      getArgAsIntIR, Except.bind, hk, if_true, if_neg hne]
  · intro args hlen
    rw [OTelSpanDefinition]
    apply noAssert_bind (parseEndpointConfig_noAssert _)
    intro endpoint_config
    apply noAssert_bind (getArgAsStringIR_noAssert _ _)
    intro name
    apply noAssert_bind (getArgAsStringIR_noAssert _ _)
    intro span_id_column
    apply noAssert_bind (getArgAsStringIR_noAssert _ _)
    intro parent_span_id_column
    apply noAssert_bind (getArgAsStringIR_noAssert _ _)
    intro trace_id_column
    apply noAssert_bind (getArgAsStringIR_noAssert _ _)
    intro status_column
    apply noAssert_bind (getArgAsStringIR_noAssert _ _)
    intro start_time_unix_nano_column
    apply noAssert_bind (getArgAsStringIR_noAssert _ _)
    intro end_time_unix_nano_column
    apply noAssert_bind (getArgAsIntIR_noAssert _ _)
    intro kindVal
    split
    · split
      · rename_i keys vals hattr
        rw [hattr] at hlen
        have hlen' : vals.length = keys.length := hlen
        rw [if_pos hlen']
        exact noAssert_bind (processOTelAttributePairs_noAssert _)
          fun r => noAssert_ok _
      · exact noAssert_structured _
    · exact noAssert_structured _
  · intro mpb mcols epb n dsc keys vals hne
    simp only [OTelMetricDefinition, parseEndpointConfig, getArgAsStringIR,
      Except.bind, if_neg hne]
  · intro args hlen
    rw [OTelMetricDefinition]
    split
    · rename_i mpb mcols hdata
      apply noAssert_bind (parseEndpointConfig_noAssert _)
      intro endpoint_config
      apply noAssert_bind (getArgAsStringIR_noAssert _ _)
      intro name
      apply noAssert_bind (getArgAsStringIR_noAssert _ _)
      intro description
      split
      · rename_i keys vals hattr
        rw [hattr] at hlen
        have hlen' : vals.length = keys.length := hlen
        rw [if_pos hlen']
        exact noAssert_bind (processOTelAttributePairs_noAssert _)
          fun r => noAssert_ok _
      · exact noAssert_structured _
    · exact noAssert_structured _
  · intro cn sn stv tv keys vals hne
    simp only [OTelSummaryDefinition, getArgAsStringIR, Except.bind, if_neg hne]
  · intro args hlen
    rw [OTelSummaryDefinition]
    apply noAssert_bind (getArgAsStringIR_noAssert _ _)
    intro count_column
    apply noAssert_bind (getArgAsStringIR_noAssert _ _)
    intro sum_column
    split
    · rename_i keys vals hq
      rw [hq] at hlen
      have hlen' : vals.length = keys.length := hlen
      rw [if_pos hlen']
      apply noAssert_bind (processQuantilePairs_noAssert _)
      intro r
      apply noAssert_bind (getArgAsStringIR_noAssert _ _)
      intro start_col
      apply noAssert_bind (getArgAsStringIR_noAssert _ _)
      intro time_col
      exact noAssert_ok _
    · exact noAssert_structured _

/-- Witness for C7: a 1-key/0-value attribute dictionary aborts the span
builder with the CHECK_EQ assertion. -/
theorem otel_dict_length_assertion_witness :
    OTelSpanDefinition
      { name := .strV "s", start_time_unix_nano := .strV "st",
        end_time_unix_nano := .strV "et", span_id := .strV "sid",
        parent_span_id := .strV "psid", trace_id := .strV "tid",
        status := .strV "stc", kind := .intV 1,
        attributes := .dictV [.strV "k"] [], endpoint := .endpointV {} } =
      .error (.assertionFailure
        "CHECK_EQ: attribute values and keys sizes differ") :=
  otel_dict_length_assertion.1 {} "s" "sid" "psid" "tid" "stc" "st" "et" 1
    [.strV "k"] [] rfl (by decide)

/- ### Claim C8 -/

/-- C8: the span builder returns a structured error naming the offending
value whenever the kind argument's integer is not a valid OTelSpanKind enum
value; when the builder succeeds, the span payload's kind field equals
exactly the given value. -/
theorem otel_span_kind_validation
    (epb : OTelEndpointConfigPB) (n sid psid tidc stc stt ett : String)
    (kv : Int) (attrsArg : QLVal) :
    (OTelSpanKind_IsValid kv = false →
      OTelSpanDefinition
        { name := .strV n, start_time_unix_nano := .strV stt,
          end_time_unix_nano := .strV ett, span_id := .strV sid,
          parent_span_id := .strV psid, trace_id := .strV tidc,
          status := .strV stc, kind := .intV kv,
          attributes := attrsArg, endpoint := .endpointV epb } =
        .error (.structured
          ("Kind value " ++ toString kv ++ " is not a valid option"))) ∧
    (∀ pb cols,
      OTelSpanDefinition
        { name := .strV n, start_time_unix_nano := .strV stt,
          end_time_unix_nano := .strV ett, span_id := .strV sid,
          parent_span_id := .strV psid, trace_id := .strV tidc,
          status := .strV stc, kind := .intV kv,
          attributes := attrsArg, endpoint := .endpointV epb } = .ok (pb, cols) →
      ∃ sp, pb.span = some sp ∧ sp.kind = kv) := by
  constructor
  · intro hk
    simp only [OTelSpanDefinition, parseEndpointConfig, getArgAsStringIR,
      getArgAsIntIR, Except.bind, hk, Bool.false_eq_true, if_false]
  · intro pb cols h
    simp only [OTelSpanDefinition, parseEndpointConfig, getArgAsStringIR,
      getArgAsIntIR, Except.bind] at h
    split at h
    · split at h
      · rename_i keys vals
        split at h
        · cases hp : processOTelAttributePairs (keys.zip vals) with
          | error e => rw [hp] at h; simp at h
          | ok r =>
            rw [hp] at h
            simp only [Except.ok.injEq, Prod.mk.injEq] at h
            obtain ⟨hpb, hcols⟩ := h
            subst hpb
            exact ⟨_, rfl, rfl⟩
        · simp at h
      · simp at h
    · simp at h

/-- Witness for C8: kind value 7 is not a valid OTelSpanKind value, so the
span builder reports it in a structured error. -/
theorem otel_span_kind_validation_witness :
    OTelSpanDefinition
      { name := .strV "s", start_time_unix_nano := .strV "st",
        end_time_unix_nano := .strV "et", span_id := .strV "sid",
        parent_span_id := .strV "psid", trace_id := .strV "tid",
        status := .strV "stc", kind := .intV 7,
        attributes := .dictV [] [], endpoint := .endpointV {} } =
      .error (.structured
        ("Kind value " ++ toString (7 : Int) ++ " is not a valid option")) :=
  (otel_span_kind_validation {} "s" "sid" "psid" "tid" "stc" "st" "et" 7
    (.dictV [] [])).1 (by decide)

end PixieCompiler
